import Mathlib

/-!
Verification development for the dotfiles configuration reconciliation engine
(`src/config_manager.py`, `src/backup.py`).

The filesystem is modelled flatly: a finite association of path strings to
entries (regular file, directory with opaque payload, or symbolic link).
Parent/child relations between paths are not modelled; each path is an atom.
Symlink resolution follows the chain of links, detecting revisited paths the
way `os.path.realpath` does (a loop stops resolution and the looping path is
returned, so a subsequent `stat` fails and `exists` is false).
-/

abbrev FPath := String

inductive Entry where
  | file (content : String)
  | dir (content : String)
  | symlink (target : FPath)
deriving DecidableEq

abbrev FS := List (FPath × Entry)

def findFS : FS → FPath → Option Entry
  | [], _ => none
  | (q, e) :: rest, p => if q = p then some e else findFS rest p

def eraseFS : FS → FPath → FS
  | [], _ => []
  | (q, e) :: rest, p => if q = p then eraseFS rest p else (q, e) :: eraseFS rest p

def setFS (fs : FS) (p : FPath) (e : Entry) : FS := (p, e) :: eraseFS fs p

def resolveGo (fs : FS) : Nat → List FPath → FPath → FPath
  | 0, _, p => p
  | n + 1, seen, p =>
    if p ∈ seen then p
    else
      match findFS fs p with
      | some (Entry.symlink t) => resolveGo fs n (p :: seen) t
      | _ => p

def chainGo (fs : FS) : Nat → List FPath → FPath → List FPath
  | 0, _, p => [p]
  | n + 1, seen, p =>
    if p ∈ seen then [p]
    else
      match findFS fs p with
      | some (Entry.symlink t) => p :: chainGo fs n (p :: seen) t
      | _ => [p]

def resolveFS (fs : FS) (p : FPath) : FPath := resolveGo fs (fs.length + 1) [] p

def chainFS (fs : FS) (p : FPath) : List FPath := chainGo fs (fs.length + 1) [] p

def keysNotSeen (fs : FS) (seen : List FPath) : Nat :=
  (fs.map Prod.fst).countP (fun q => decide (q ∉ seen))

def isSymlinkFS (fs : FS) (p : FPath) : Bool :=
  match findFS fs p with
  | some (Entry.symlink _) => true
  | _ => false

def existsFS (fs : FS) (p : FPath) : Bool :=
  match findFS fs (resolveFS fs p) with
  | some (Entry.file _) => true
  | some (Entry.dir _) => true
  | _ => false

def isFileFS (fs : FS) (p : FPath) : Bool :=
  match findFS fs (resolveFS fs p) with
  | some (Entry.file _) => true
  | _ => false

def isDirFS (fs : FS) (p : FPath) : Bool :=
  match findFS fs (resolveFS fs p) with
  | some (Entry.dir _) => true
  | _ => false

/-- Home-directory placeholder expansion, with a fixed home directory. -/
def expanduser (p : FPath) : FPath :=
  match p.data with
  | ['~'] => "/home/user"
  | '~' :: '/' :: rest => String.mk ("/home/user".data ++ ('/' :: rest))
  | _ => p

def parentOf (p : FPath) : FPath :=
  let parts := p.splitOn "/"
  if parts.length ≤ 1 then p else String.intercalate "/" parts.dropLast

def basename (p : FPath) : FPath := ((p.splitOn "/").getLast?).getD p

/-- Oracle deciding which raw filesystem operations raise an OSError.  The
source catches every such exception and turns it into a boolean failure; the
oracle lets the theorems quantify over arbitrary injected faults. -/
structure ErrOracle where
  unlinkFails : FPath → Bool
  rmtreeFails : FPath → Bool
  mkdirFails : FPath → Bool
  symlinkFails : FPath → Bool
  copyFails : FPath → Bool

def noErrors : ErrOracle :=
  { unlinkFails := fun _ => false, rmtreeFails := fun _ => false,
    mkdirFails := fun _ => false, symlinkFails := fun _ => false,
    copyFails := fun _ => false }

/-- Model of ConfigManager.create_symlink (config_manager.py lines 58-107). -/
def create_symlink (errs : ErrOracle) (fs : FS) (source target0 : FPath) (force : Bool) :
    Bool × FS :=
  let target := expanduser target0
  let src := resolveFS fs source
  if existsFS fs src = false then (false, fs)
  else if (existsFS fs target || isSymlinkFS fs target) = true then
    if isSymlinkFS fs target = true ∧ resolveFS fs target = src then (true, fs)
    else if force = false then (false, fs)
    else
      let removeFails :=
        if isSymlinkFS fs target = true then errs.unlinkFails target
        else if isDirFS fs target = true then errs.rmtreeFails target
        else errs.unlinkFails target
      if removeFails = true then (false, fs)
      else
        let fs1 := eraseFS fs target
        if errs.mkdirFails (parentOf target) = true then (false, fs1)
        else if errs.symlinkFails target = true then (false, fs1)
        else (true, setFS fs1 target (Entry.symlink src))
  else
    if errs.mkdirFails (parentOf target) = true then (false, fs)
    else if errs.symlinkFails target = true then (false, fs)
    else (true, setFS fs target (Entry.symlink src))

/-- The per-entry loop of ConfigManager.deploy_configs (lines 140-169). -/
def deploy_configs_go (errs : ErrOracle) (configsDir : FPath) (force : Bool) :
    FS → List (String × String) → List (String × Bool) × FS
  | fs, [] => ([], fs)
  | fs, (name, tpath) :: rest =>
    let source := configsDir ++ "/" ++ name
    if existsFS fs source = true then
      let r := create_symlink errs fs source tpath force
      let out := deploy_configs_go errs configsDir force r.2 rest
      ((name, r.1) :: out.1, out.2)
    else
      let out := deploy_configs_go errs configsDir force fs rest
      ((name, false) :: out.1, out.2)

/-- Conflict record produced by ConfigManager.check_conflicts. -/
structure Conflict where
  name : String
  path : String
  type : String
  is_symlink : Bool
deriving DecidableEq

/-- The per-entry loop of ConfigManager.check_conflicts (lines 171-207). -/
def check_conflicts_go (configsDir : FPath) (fs : FS) :
    List (String × String) → List Conflict
  | [] => []
  | (name, tpath) :: rest =>
    let target := expanduser tpath
    if (existsFS fs target || isSymlinkFS fs target) = true then
      if isSymlinkFS fs target = true ∧ existsFS fs (configsDir ++ "/" ++ name) = true ∧
          resolveFS fs target = resolveFS fs (configsDir ++ "/" ++ name) then
        check_conflicts_go configsDir fs rest
      else
        { name := name, path := target,
          type := if isSymlinkFS fs target = true then "symlink"
                  else if isDirFS fs target = true then "directory" else "file",
          is_symlink := isSymlinkFS fs target } :: check_conflicts_go configsDir fs rest
    else check_conflicts_go configsDir fs rest

/-- YAML-like values as loaded by yaml.safe_load for profile documents. -/
inductive Yaml where
  | str (s : String)
  | int (n : Int)
  | bool (b : Bool)
  | null
  | dict (kvs : List (String × Yaml))

def dictGet : List (String × Yaml) → String → Option Yaml
  | [], _ => none
  | (k, v) :: rest, key => if k = key then some v else dictGet rest key

def dictHas (d : List (String × Yaml)) (k : String) : Bool := (dictGet d k).isSome

/-- Python dict assignment d[k] = v: replace in place, else append. -/
def dictSet : List (String × Yaml) → String → Yaml → List (String × Yaml)
  | [], k, v => [(k, v)]
  | (a, w) :: rest, k, v =>
    if a = k then (k, v) :: rest else (a, w) :: dictSet rest k v

/-- Python dict.update: assign every entry of e into d, in order. -/
def dictUpdate (d e : List (String × Yaml)) : List (String × Yaml) :=
  e.foldl (fun acc kv => dictSet acc kv.1 kv.2) d

def isYamlDict : Yaml → Bool
  | Yaml.dict _ => true
  | _ => false

def mergeOverridesAux (m1 : List (String × Yaml)) (av : Yaml) :
    Except String (List (String × Yaml)) :=
  match dictGet m1 "overrides", av with
  | some (Yaml.dict mo), Yaml.dict ao =>
    Except.ok (dictSet m1 "overrides" (Yaml.dict (dictUpdate mo ao)))
  | _, _ => Except.error "TypeError: cannot update overrides"

/-- The overrides deep-merge step of merge_profiles (lines 39-43). -/
def mergeOverrides (m a : List (String × Yaml)) : Except String (List (String × Yaml)) :=
  match dictGet a "overrides" with
  | none => Except.ok m
  | some av =>
    mergeOverridesAux
      (if dictHas m "overrides" = true then m else dictSet m "overrides" (Yaml.dict [])) av

/-- One iteration of the field-merge loop of merge_profiles (lines 46-51).
A non-mapping base value cannot be .update-d: that raises AttributeError. -/
def mergeItem (m : List (String × Yaml)) (kv : String × Yaml) :
    Except String (List (String × Yaml)) :=
  if kv.1 = "overrides" then Except.ok m
  else
    match kv.2 with
    | Yaml.dict av =>
      if dictHas m kv.1 = true then
        match dictGet m kv.1 with
        | some (Yaml.dict mv) => Except.ok (dictSet m kv.1 (Yaml.dict (dictUpdate mv av)))
        | _ => Except.error "AttributeError: value has no attribute update"
      else Except.ok (dictSet m kv.1 (Yaml.dict av))
    | v => Except.ok (dictSet m kv.1 v)

def mergeItems : List (String × Yaml) → List (String × Yaml) →
    Except String (List (String × Yaml))
  | m, [] => Except.ok m
  | m, kv :: rest =>
    match mergeItem m kv with
    | Except.error e => Except.error e
    | Except.ok m1 => mergeItems m1 rest

/-- Applying one overlay dictionary onto the accumulated merge result. -/
def mergeDicts (m a : List (String × Yaml)) : Except String (List (String × Yaml)) :=
  match mergeOverrides m a with
  | Except.error e => Except.error e
  | Except.ok m1 => mergeItems m1 a

/-- Model of ConfigManager.load_profile: the profile store is the parsed
contents of the profiles directory; a missing name raises FileNotFoundError,
modelled as none. -/
def load_profile : List (String × Yaml) → String → Option Yaml
  | [], _ => none
  | (k, v) :: rest, name => if k = name then some v else load_profile rest name

def mergeProfilesGo (store : List (String × Yaml)) :
    Yaml → List String → Except String Yaml
  | m, [] => Except.ok m
  | m, name :: rest =>
    match load_profile store name with
    | none => mergeProfilesGo store m rest
    | some a =>
      match m, a with
      | Yaml.dict mkv, Yaml.dict akv =>
        match mergeDicts mkv akv with
        | Except.error e => Except.error e
        | Except.ok m1 => mergeProfilesGo store (Yaml.dict m1) rest
      | _, _ => Except.error "TypeError: profile is not a mapping"

/-- Model of ConfigManager.merge_profiles (lines 28-56). -/
def merge_profiles (store : List (String × Yaml)) (base : String)
    (additional : List String) : Except String Yaml :=
  match load_profile store base with
  | none => Except.error "FileNotFoundError: profile not found"
  | some m => mergeProfilesGo store m additional

/-- profile.get("config_paths", {}) followed by iterating .items(): a
non-mapping document (for example an empty profile file, which yaml.safe_load
parses to None) has no .get, so AttributeError is raised; a config_paths
value that is itself not a mapping has no .items, raising AttributeError too.
The raw entries are returned unfiltered, with their Yaml-typed targets. -/
def getConfigPaths (profile : Yaml) : Except String (List (String × Yaml)) :=
  match profile with
  | Yaml.dict kvs =>
    match dictGet kvs "config_paths" with
    | none => Except.ok []
    | some (Yaml.dict paths) => Except.ok paths
    | some _ => Except.error "AttributeError: object has no attribute items"
  | _ => Except.error "AttributeError: object has no attribute get"

/-- The deploy_configs loop over raw config_paths items.  A non-string
target raises TypeError inside create_symlink's try block (Path(target)),
which is caught and recorded as a false result with no mutation; string
targets follow the ordinary create_symlink path. -/
def deploy_configs_items (errs : ErrOracle) (configsDir : FPath) (force : Bool) :
    FS → List (String × Yaml) → List (String × Bool) × FS
  | fs, [] => ([], fs)
  | fs, (name, tv) :: rest =>
    let source := configsDir ++ "/" ++ name
    if existsFS fs source = true then
      match tv with
      | Yaml.str tpath =>
        let r := create_symlink errs fs source tpath force
        let out := deploy_configs_items errs configsDir force r.2 rest
        ((name, r.1) :: out.1, out.2)
      | _ =>
        let out := deploy_configs_items errs configsDir force fs rest
        ((name, false) :: out.1, out.2)
    else
      let out := deploy_configs_items errs configsDir force fs rest
      ((name, false) :: out.1, out.2)

/-- The check_conflicts loop over raw config_paths items.  Here
Path(target_path) is evaluated outside any try block (line 183), so a
non-string target raises TypeError and aborts the whole call. -/
def check_conflicts_items (configsDir : FPath) (fs : FS) :
    List (String × Yaml) → Except String (List Conflict)
  | [] => Except.ok []
  | (name, tv) :: rest =>
    match tv with
    | Yaml.str tpath =>
      match check_conflicts_items configsDir fs rest with
      | Except.error e => Except.error e
      | Except.ok cs =>
        let target := expanduser tpath
        if (existsFS fs target || isSymlinkFS fs target) = true then
          if isSymlinkFS fs target = true ∧
              existsFS fs (configsDir ++ "/" ++ name) = true ∧
              resolveFS fs target = resolveFS fs (configsDir ++ "/" ++ name) then
            Except.ok cs
          else
            Except.ok
              ({ name := name, path := target,
                 type := if isSymlinkFS fs target = true then "symlink"
                         else if isDirFS fs target = true then "directory" else "file",
                 is_symlink := isSymlinkFS fs target } :: cs)
        else Except.ok cs
    | _ => Except.error "TypeError: argument should be a str"

/-- Model of ConfigManager.deploy_configs applied to a loaded profile: the
extraction of config_paths can raise (non-mapping document or non-mapping
config_paths value), and that exception is not caught at this level. -/
def deploy_configs (errs : ErrOracle) (configsDir : FPath) (fs : FS) (profile : Yaml)
    (force : Bool) : Except String (List (String × Bool) × FS) :=
  match getConfigPaths profile with
  | Except.error e => Except.error e
  | Except.ok items => Except.ok (deploy_configs_items errs configsDir force fs items)

/-- Model of ConfigManager.check_conflicts applied to a loaded profile, with
the same uncaught extraction errors as deploy_configs. -/
def check_conflicts (configsDir : FPath) (fs : FS) (profile : Yaml) :
    Except String (List Conflict) :=
  match getConfigPaths profile with
  | Except.error e => Except.error e
  | Except.ok items => check_conflicts_items configsDir fs items

def entryIsSymlink : Entry → Bool
  | Entry.symlink _ => true
  | _ => false

def hasConfigPaths : Yaml → Bool
  | Yaml.dict kvs => dictHas kvs "config_paths"
  | _ => false

/-- Concrete two-profile store used for the merge-order example. -/
def storeC3 : List (String × Yaml) :=
  [("A", Yaml.dict [("x", Yaml.int 1), ("y", Yaml.int 2)]),
   ("B", Yaml.dict [("y", Yaml.int 3), ("z", Yaml.int 4)])]

/-- One record of the in-memory backup log (backup.py lines 51-56). -/
structure BackupEntry where
  source : String
  destination : String
  type : String
  timestamp : String
deriving DecidableEq

/-- A backup session: its directory, timestamp, accumulated log, and the
filesystem it acts on. -/
structure BackupState where
  dir : FPath
  timestamp : String
  log : List BackupEntry
  fs : FS
deriving DecidableEq

/-- Model of BackupManager.backup_file (backup.py lines 23-62). -/
def backup_file (errs : ErrOracle) (st : BackupState) (source : FPath)
    (name : Option String) : Bool × BackupState :=
  if existsFS st.fs source = false then (false, st)
  else
    let backupName :=
      match name with
      | some n => if n = "" then basename source else n
      | none => basename source
    let destination := st.dir ++ "/" ++ backupName
    let entry : BackupEntry :=
      { source := source, destination := destination,
        type := if isDirFS st.fs source = true then "directory" else "file",
        timestamp := st.timestamp }
    match findFS st.fs (resolveFS st.fs source) with
    | some (Entry.file c) =>
      if errs.copyFails source = true then (false, st)
      else (true, { st with fs := setFS st.fs destination (Entry.file c),
                            log := st.log ++ [entry] })
    | some (Entry.dir d) =>
      if errs.copyFails source = true then (false, st)
      else (true, { st with fs := setFS st.fs destination (Entry.dir d),
                            log := st.log ++ [entry] })
    | _ => (true, { st with log := st.log ++ [entry] })

/-- Model of BackupManager.backup_configs (backup.py lines 64-90).
A missing target records none: no backup needed. -/
def backup_configs (errs : ErrOracle) :
    BackupState → List (String × String) → List (String × Option Bool) × BackupState
  | st, [] => ([], st)
  | st, (name, pstr) :: rest =>
    let path := expanduser pstr
    if existsFS st.fs path = true then
      let r := backup_file errs st path (some name)
      let out := backup_configs errs r.2 rest
      ((name, some r.1) :: out.1, out.2)
    else
      let out := backup_configs errs st rest
      ((name, none) :: out.1, out.2)

/-- Model of BackupManager.save_backup_log (backup.py lines 101-116): the
manifest text written to backup_log.txt. -/
def save_backup_log (st : BackupState) : String :=
  let sep60 := String.mk (List.replicate 60 (Char.ofNat 61))
  let dash60 := String.mk (List.replicate 60 (Char.ofNat 45))
  let header := "Dotfiles Backup Log\n" ++ "Timestamp: " ++ st.timestamp ++ "\n" ++
    sep60 ++ "\n\n"
  st.log.foldl (fun acc e =>
    acc ++ "Type: " ++ e.type ++ "\n" ++ "Source: " ++ e.source ++ "\n" ++
      "Destination: " ++ e.destination ++ "\n" ++ dash60 ++ "\n") header

theorem findFS_eraseFS (fs : FS) (p q : FPath) :
    findFS (eraseFS fs p) q = if q = p then none else findFS fs q := by
  induction fs with
  | nil => simp [eraseFS, findFS]
  | cons kv rest ih =>
    obtain ⟨a, e⟩ := kv
    by_cases hap : a = p
    · rw [show eraseFS ((a, e) :: rest) p = eraseFS rest p by simp [eraseFS, hap]]
      rw [ih]
      by_cases hq : q = p
      · simp [hq]
      · have haq : ¬ a = q := fun h => hq (by rw [← h, hap])
        simp [hq, findFS, haq]
    · rw [show eraseFS ((a, e) :: rest) p = (a, e) :: eraseFS rest p by simp [eraseFS, hap]]
      simp only [findFS, ih]
      by_cases hq : q = p
      · have haq : ¬ a = q := fun h => hap (h.trans hq)
        simp [hq, haq, hap]
      · simp [hq]

theorem findFS_setFS (fs : FS) (p q : FPath) (e : Entry) :
    findFS (setFS fs p e) q = if q = p then some e else findFS fs q := by
  by_cases hq : q = p
  · subst hq; simp [setFS, findFS]
  · have hpq : ¬ p = q := fun h => hq h.symm
    simp [setFS, findFS, hpq, findFS_eraseFS, hq]

theorem findFS_mem_keys {fs : FS} {p : FPath} {e : Entry} (h : findFS fs p = some e) :
    p ∈ fs.map Prod.fst := by
  induction fs with
  | nil => simp [findFS] at h
  | cons kv rest ih =>
    obtain ⟨a, e'⟩ := kv
    simp only [findFS] at h
    by_cases hap : a = p
    · subst hap; simp
    · simp only [if_neg hap] at h
      simpa using Or.inr (ih h)

/-! Symlink resolution.  The fuel argument only serves termination: it is
always called with more fuel than there are unvisited filesystem keys, so the
fuel never runs out before either a non-link entry or a revisited path is
reached (see `resolveGo_fuel_eq`). -/

theorem countP_notMem_cons_lt (l : List FPath) (p : FPath) (seen : List FPath)
    (hp : p ∈ l) (hns : p ∉ seen) :
    l.countP (fun q => decide (q ∉ p :: seen)) < l.countP (fun q => decide (q ∉ seen)) := by
  induction l with
  | nil => simp at hp
  | cons a t ih =>
    have hmono : t.countP (fun q => decide (q ∉ p :: seen)) ≤
        t.countP (fun q => decide (q ∉ seen)) := by
      apply List.countP_mono_left
      intro x _ hx
      simp only [decide_eq_true_eq] at hx ⊢
      intro hmem
      exact hx (List.mem_cons_of_mem _ hmem)
    by_cases hpa : p = a
    · subst hpa
      have h1 : decide (p ∉ p :: seen) = false := by simp
      have h2 : decide (p ∉ seen) = true := by simpa using hns
      simp only [List.countP_cons, h1, h2, if_true, Bool.false_eq_true, if_false]
      omega
    · have hpt : p ∈ t := by
        rcases List.mem_cons.mp hp with h | h
        · exact absurd h hpa
        · exact h
      have hlt := ih hpt
      simp only [List.countP_cons]
      have hhead : (if decide (a ∉ p :: seen) = true then 1 else 0) ≤
          (if decide (a ∉ seen) = true then 1 else 0) := by
        by_cases ha : a ∈ seen
        · simp [ha]
        · by_cases hap : a = p
          · exact absurd hap.symm hpa
          · simp [ha, hap]
      omega

theorem keysNotSeen_cons_lt {fs : FS} {p t : FPath} {seen : List FPath}
    (hfind : findFS fs p = some (Entry.symlink t)) (hns : p ∉ seen) :
    keysNotSeen fs (p :: seen) < keysNotSeen fs seen :=
  countP_notMem_cons_lt _ _ _ (findFS_mem_keys hfind) hns

theorem keysNotSeen_le_length (fs : FS) (seen : List FPath) :
    keysNotSeen fs seen ≤ fs.length := by
  calc keysNotSeen fs seen ≤ (fs.map Prod.fst).length := List.countP_le_length _
    _ = fs.length := List.length_map _ _

theorem resolveGo_fuel_eq (fs : FS) :
    ∀ n m : Nat, ∀ seen : List FPath, ∀ p : FPath,
      keysNotSeen fs seen < n → keysNotSeen fs seen < m →
      resolveGo fs n seen p = resolveGo fs m seen p := by
  intro n
  induction n with
  | zero => intro m seen p h1 _; omega
  | succ n ih =>
    intro m seen p h1 h2
    obtain ⟨m', rfl⟩ : ∃ m', m = m' + 1 := by
      cases m with
      | zero => omega
      | succ k => exact ⟨k, rfl⟩
    simp only [resolveGo]
    by_cases hseen : p ∈ seen
    · simp [hseen]
    · simp only [if_neg hseen]
      cases hfind : findFS fs p with
      | none => rfl
      | some e =>
        cases e with
        | file c => rfl
        | dir c => rfl
        | symlink t =>
          have hlt := keysNotSeen_cons_lt hfind hseen
          exact ih _ (p :: seen) t (by omega) (by omega)

theorem chainGo_fuel_eq (fs : FS) :
    ∀ n m : Nat, ∀ seen : List FPath, ∀ p : FPath,
      keysNotSeen fs seen < n → keysNotSeen fs seen < m →
      chainGo fs n seen p = chainGo fs m seen p := by
  intro n
  induction n with
  | zero => intro m seen p h1 _; omega
  | succ n ih =>
    intro m seen p h1 h2
    obtain ⟨m', rfl⟩ : ∃ m', m = m' + 1 := by
      cases m with
      | zero => omega
      | succ k => exact ⟨k, rfl⟩
    simp only [chainGo]
    by_cases hseen : p ∈ seen
    · simp [hseen]
    · simp only [if_neg hseen]
      cases hfind : findFS fs p with
      | none => rfl
      | some e =>
        cases e with
        | file c => rfl
        | dir c => rfl
        | symlink t =>
          have hlt := keysNotSeen_cons_lt hfind hseen
          exact congrArg (List.cons p) (ih m' (p :: seen) t (by omega) (by omega))

theorem mem_chainGo_self (fs : FS) :
    ∀ n : Nat, ∀ seen : List FPath, ∀ p : FPath, p ∈ chainGo fs n seen p := by
  intro n seen p
  cases n with
  | zero => simp [chainGo]
  | succ n =>
    simp only [chainGo]
    by_cases hseen : p ∈ seen
    · simp [hseen]
    · simp only [if_neg hseen]
      cases hfind : findFS fs p with
      | none => simp
      | some e => cases e <;> simp

theorem resolveGo_mem_chainGo (fs : FS) :
    ∀ n : Nat, ∀ seen : List FPath, ∀ p : FPath,
      resolveGo fs n seen p ∈ chainGo fs n seen p := by
  intro n
  induction n with
  | zero => intro seen p; simp [resolveGo, chainGo]
  | succ n ih =>
    intro seen p
    simp only [resolveGo, chainGo]
    by_cases hseen : p ∈ seen
    · simp [hseen]
    · simp only [if_neg hseen]
      cases hfind : findFS fs p with
      | none => simp
      | some e =>
        cases e with
        | file c => simp
        | dir c => simp
        | symlink t => exact List.mem_cons_of_mem _ (ih (p :: seen) t)

theorem resolveGo_congr (fs fs' : FS) :
    ∀ n : Nat, ∀ seen : List FPath, ∀ p : FPath, ∀ m : Nat,
      keysNotSeen fs seen < n → keysNotSeen fs' seen < m →
      (∀ q ∈ chainGo fs n seen p, findFS fs' q = findFS fs q) →
      resolveGo fs' m seen p = resolveGo fs n seen p := by
  intro n
  induction n with
  | zero => intro seen p m h1 _ _; omega
  | succ n ih =>
    intro seen p m h1 h2 hagree
    obtain ⟨m', rfl⟩ : ∃ m', m = m' + 1 := by
      cases m with
      | zero => omega
      | succ k => exact ⟨k, rfl⟩
    have hp : findFS fs' p = findFS fs p :=
      hagree p (mem_chainGo_self fs (n + 1) seen p)
    simp only [resolveGo]
    by_cases hseen : p ∈ seen
    · simp [hseen]
    · simp only [if_neg hseen]
      rw [hp]
      cases hfind : findFS fs p with
      | none => rfl
      | some e =>
        cases e with
        | file c => rfl
        | dir c => rfl
        | symlink t =>
          have hlt := keysNotSeen_cons_lt hfind hseen
          have hlt' : keysNotSeen fs' (p :: seen) < keysNotSeen fs' seen :=
            keysNotSeen_cons_lt (hp.trans hfind) hseen
          apply ih (p :: seen) t m' (by omega) (by omega)
          intro q hq
          apply hagree
      -- the tail of the chain at p is contained in the chain itself
          have hchain : chainGo fs (n + 1) seen p = p :: chainGo fs n (p :: seen) t := by
            simp [chainGo, if_neg hseen, hfind]
          rw [hchain]
          exact List.mem_cons_of_mem _ hq

theorem chainGo_congr (fs fs' : FS) :
    ∀ n : Nat, ∀ seen : List FPath, ∀ p : FPath, ∀ m : Nat,
      keysNotSeen fs seen < n → keysNotSeen fs' seen < m →
      (∀ q ∈ chainGo fs n seen p, findFS fs' q = findFS fs q) →
      chainGo fs' m seen p = chainGo fs n seen p := by
  intro n
  induction n with
  | zero => intro seen p m h1 _ _; omega
  | succ n ih =>
    intro seen p m h1 h2 hagree
    obtain ⟨m', rfl⟩ : ∃ m', m = m' + 1 := by
      cases m with
      | zero => omega
      | succ k => exact ⟨k, rfl⟩
    have hp : findFS fs' p = findFS fs p :=
      hagree p (mem_chainGo_self fs (n + 1) seen p)
    simp only [chainGo]
    by_cases hseen : p ∈ seen
    · simp [hseen]
    · simp only [if_neg hseen]
      rw [hp]
      cases hfind : findFS fs p with
      | none => rfl
      | some e =>
        cases e with
        | file c => rfl
        | dir c => rfl
        | symlink t =>
          have hlt := keysNotSeen_cons_lt hfind hseen
          have hlt' : keysNotSeen fs' (p :: seen) < keysNotSeen fs' seen :=
            keysNotSeen_cons_lt (hp.trans hfind) hseen
          refine congrArg (List.cons p) (ih (p :: seen) t m' (by omega) (by omega) ?_)
          intro q hq
          apply hagree
          have hchain : chainGo fs (n + 1) seen p = p :: chainGo fs n (p :: seen) t := by
            simp [chainGo, if_neg hseen, hfind]
          rw [hchain]
          exact List.mem_cons_of_mem _ hq

theorem keysNotSeen_nil_lt (fs : FS) : keysNotSeen fs [] < fs.length + 1 := by
  have := keysNotSeen_le_length fs []
  omega

theorem resolveFS_congr {fs fs' : FS} {p : FPath}
    (h : ∀ q ∈ chainFS fs p, findFS fs' q = findFS fs q) :
    resolveFS fs' p = resolveFS fs p :=
  resolveGo_congr fs fs' (fs.length + 1) [] p (fs'.length + 1)
    (keysNotSeen_nil_lt fs) (keysNotSeen_nil_lt fs') h

theorem chainFS_congr {fs fs' : FS} {p : FPath}
    (h : ∀ q ∈ chainFS fs p, findFS fs' q = findFS fs q) :
    chainFS fs' p = chainFS fs p :=
  chainGo_congr fs fs' (fs.length + 1) [] p (fs'.length + 1)
    (keysNotSeen_nil_lt fs) (keysNotSeen_nil_lt fs') h

theorem resolveFS_mem_chainFS (fs : FS) (p : FPath) : resolveFS fs p ∈ chainFS fs p :=
  resolveGo_mem_chainGo fs (fs.length + 1) [] p

theorem mem_chainFS_self (fs : FS) (p : FPath) : p ∈ chainFS fs p :=
  mem_chainGo_self fs (fs.length + 1) [] p

theorem resolveGo_succ (fs : FS) (n : Nat) (seen : List FPath) (p : FPath) :
    resolveGo fs (n + 1) seen p =
      if p ∈ seen then p
      else
        match findFS fs p with
        | some (Entry.symlink t) => resolveGo fs n (p :: seen) t
        | _ => p := rfl

theorem resolveFS_of_not_symlink {fs : FS} {p : FPath} (h : isSymlinkFS fs p = false) :
    resolveFS fs p = p := by
  show resolveGo fs (fs.length + 1) [] p = p
  rw [resolveGo_succ, if_neg (List.not_mem_nil p)]
  cases hf : findFS fs p with
  | none => rfl
  | some e =>
    cases e with
    | file c => rfl
    | dir c => rfl
    | symlink t => simp [isSymlinkFS, hf] at h

theorem resolveFS_symlink_step {fs : FS} {p t : FPath}
    (hfind : findFS fs p = some (Entry.symlink t)) (hne : t ≠ p)
    (ht : isSymlinkFS fs t = false) : resolveFS fs p = t := by
  obtain ⟨k, hk⟩ : ∃ k, fs.length = k + 1 := by
    cases fs with
    | nil => simp [findFS] at hfind
    | cons kv rest => exact ⟨rest.length, rfl⟩
  show resolveGo fs (fs.length + 1) [] p = t
  rw [resolveGo_succ, if_neg (List.not_mem_nil p), hfind]
  show resolveGo fs fs.length [p] t = t
  rw [hk, resolveGo_succ, if_neg (by simpa using hne)]
  cases hf : findFS fs t with
  | none => rfl
  | some e =>
    cases e with
    | file c => rfl
    | dir c => rfl
    | symlink u => simp [isSymlinkFS, hf] at ht

theorem isSymlinkFS_eq_entryIsSymlink (fs : FS) (p : FPath) {e : Entry}
    (h : findFS fs p = some e) : isSymlinkFS fs p = entryIsSymlink e := by
  cases e <;> simp [isSymlinkFS, entryIsSymlink, h]

theorem existsFS_of_file {fs : FS} {p : FPath} {c : String}
    (h : findFS fs p = some (Entry.file c)) : existsFS fs p = true := by
  have hr : resolveFS fs p = p := resolveFS_of_not_symlink (by simp [isSymlinkFS, h])
  simp [existsFS, hr, h]

theorem existsFS_of_dir {fs : FS} {p : FPath} {c : String}
    (h : findFS fs p = some (Entry.dir c)) : existsFS fs p = true := by
  have hr : resolveFS fs p = p := resolveFS_of_not_symlink (by simp [isSymlinkFS, h])
  simp [existsFS, hr, h]

theorem existsFS_of_none {fs : FS} {p : FPath} (h : findFS fs p = none) :
    existsFS fs p = false := by
  have hr : resolveFS fs p = p := resolveFS_of_not_symlink (by simp [isSymlinkFS, h])
  simp [existsFS, hr, h]

theorem isDirFS_of_file {fs : FS} {p : FPath} {c : String}
    (h : findFS fs p = some (Entry.file c)) : isDirFS fs p = false := by
  have hr : resolveFS fs p = p := resolveFS_of_not_symlink (by simp [isSymlinkFS, h])
  simp [isDirFS, hr, h]

theorem isDirFS_of_dir {fs : FS} {p : FPath} {c : String}
    (h : findFS fs p = some (Entry.dir c)) : isDirFS fs p = true := by
  have hr : resolveFS fs p = p := resolveFS_of_not_symlink (by simp [isSymlinkFS, h])
  simp [isDirFS, hr, h]

theorem existsFS_congr_resolve {fs : FS} {p q : FPath}
    (h : resolveFS fs p = resolveFS fs q) : existsFS fs p = existsFS fs q := by
  simp [existsFS, h]

/-- C2: conflict detection classifies an existing plain file at the target as
kind "file", an existing directory as "directory", an existing symlink that
does not resolve to an existing store source (including a dangling symlink)
as "symlink", and emits no conflict record when the target is a symlink whose
resolved destination equals the resolved (and existing) store source. -/
theorem C2_conflict_classification (configsDir : FPath) (fs : FS)
    (name tpath : String) (rest : List (String × String)) :
    (∀ c, findFS fs (expanduser tpath) = some (Entry.file c) →
      check_conflicts_go configsDir fs ((name, tpath) :: rest) =
        { name := name, path := expanduser tpath, type := "file", is_symlink := false } ::
          check_conflicts_go configsDir fs rest) ∧
    (∀ c, findFS fs (expanduser tpath) = some (Entry.dir c) →
      check_conflicts_go configsDir fs ((name, tpath) :: rest) =
        { name := name, path := expanduser tpath, type := "directory", is_symlink := false } ::
          check_conflicts_go configsDir fs rest) ∧
    (∀ q, findFS fs (expanduser tpath) = some (Entry.symlink q) →
      ¬ (existsFS fs (configsDir ++ "/" ++ name) = true ∧
          resolveFS fs (expanduser tpath) = resolveFS fs (configsDir ++ "/" ++ name)) →
      check_conflicts_go configsDir fs ((name, tpath) :: rest) =
        { name := name, path := expanduser tpath, type := "symlink", is_symlink := true } ::
          check_conflicts_go configsDir fs rest) ∧
    (∀ q, findFS fs (expanduser tpath) = some (Entry.symlink q) →
      existsFS fs (configsDir ++ "/" ++ name) = true →
      resolveFS fs (expanduser tpath) = resolveFS fs (configsDir ++ "/" ++ name) →
      check_conflicts_go configsDir fs ((name, tpath) :: rest) =
        check_conflicts_go configsDir fs rest) := by
  refine ⟨?_, ?_, ?_, ?_⟩
  · intro c h
    have hsym : isSymlinkFS fs (expanduser tpath) = false := by simp [isSymlinkFS, h]
    have hex : existsFS fs (expanduser tpath) = true := existsFS_of_file h
    have hdir : isDirFS fs (expanduser tpath) = false := isDirFS_of_file h
    simp [check_conflicts_go, hsym, hex, hdir]
  · intro c h
    have hsym : isSymlinkFS fs (expanduser tpath) = false := by simp [isSymlinkFS, h]
    have hex : existsFS fs (expanduser tpath) = true := existsFS_of_dir h
    have hdir : isDirFS fs (expanduser tpath) = true := isDirFS_of_dir h
    simp [check_conflicts_go, hsym, hex, hdir]
  · intro q h hno
    have hsym : isSymlinkFS fs (expanduser tpath) = true := by simp [isSymlinkFS, h]
    simp [check_conflicts_go, hsym, hno]
  · intro q h hex hres
    have hsym : isSymlinkFS fs (expanduser tpath) = true := by simp [isSymlinkFS, h]
    simp [check_conflicts_go, hsym, hex, hres]

theorem C2_conflict_classification_witness :
    check_conflicts_go "/store"
      [("/store/zshrc", Entry.file "src"), ("/home/user/.zshrc", Entry.file "old")]
      [("zshrc", "~/.zshrc")] =
      [{ name := "zshrc", path := "/home/user/.zshrc", type := "file", is_symlink := false }] :=
  (C2_conflict_classification "/store"
    [("/store/zshrc", Entry.file "src"), ("/home/user/.zshrc", Entry.file "old")]
    "zshrc" "~/.zshrc" []).1 "old" (by decide)

/-- C5: with force false, any existing target entry (plain file, directory,
or a symlink that does not resolve to the canonical source) makes
create_symlink return false and leave the filesystem exactly unchanged. -/
theorem C5_no_force_no_mutation (errs : ErrOracle) (fs : FS) (source tpath : String)
    (e : Entry) (hfind : findFS fs (expanduser tpath) = some e)
    (hforeign : entryIsSymlink e = true →
      resolveFS fs (expanduser tpath) ≠ resolveFS fs source) :
    create_symlink errs fs source tpath false = (false, fs) := by
  by_cases hsrc : existsFS fs (resolveFS fs source) = false
  · simp [create_symlink, hsrc]
  · have hsrc' : existsFS fs (resolveFS fs source) = true := by
      cases h : existsFS fs (resolveFS fs source)
      · exact absurd h hsrc
      · rfl
    cases e with
    | file c =>
      have hex : existsFS fs (expanduser tpath) = true := existsFS_of_file hfind
      have hsym : isSymlinkFS fs (expanduser tpath) = false := by simp [isSymlinkFS, hfind]
      simp [create_symlink, hsrc', hex, hsym]
    | dir c =>
      have hex : existsFS fs (expanduser tpath) = true := existsFS_of_dir hfind
      have hsym : isSymlinkFS fs (expanduser tpath) = false := by simp [isSymlinkFS, hfind]
      simp [create_symlink, hsrc', hex, hsym]
    | symlink q =>
      have hsym : isSymlinkFS fs (expanduser tpath) = true := by simp [isSymlinkFS, hfind]
      have hno : resolveFS fs (expanduser tpath) ≠ resolveFS fs source := hforeign rfl
      simp [create_symlink, hsrc', hsym, hno]

theorem C5_no_force_no_mutation_witness :
    create_symlink noErrors
      [("/store/zshrc", Entry.file "src"), ("/home/user/.zshrc", Entry.file "old")]
      "/store/zshrc" "~/.zshrc" false =
      (false, [("/store/zshrc", Entry.file "src"), ("/home/user/.zshrc", Entry.file "old")]) :=
  C5_no_force_no_mutation noErrors
    [("/store/zshrc", Entry.file "src"), ("/home/user/.zshrc", Entry.file "old")]
    "/store/zshrc" "~/.zshrc" (Entry.file "old") (by decide) (by decide)

/-- C10 counterexample: an empty profile document parses to None, which
lacks the config_paths key, yet deployment and conflict detection raise
AttributeError (None has no .get attribute) instead of returning an empty
result map and an empty conflict list, so the claim's universal no-raise
clause over all documents lacking the key fails. -/
theorem C10_counterexample :
    load_profile [("empty.yml", Yaml.null)] "empty.yml" = some Yaml.null ∧
    hasConfigPaths Yaml.null = false ∧
    deploy_configs noErrors "/store" [] Yaml.null false =
      Except.error "AttributeError: object has no attribute get" ∧
    check_conflicts "/store" [] Yaml.null =
      Except.error "AttributeError: object has no attribute get" ∧
    deploy_configs noErrors "/store" [] Yaml.null false ≠ Except.ok ([], []) ∧
    check_conflicts "/store" [] Yaml.null ≠ Except.ok [] := by
  refine ⟨rfl, rfl, rfl, rfl, ?_, ?_⟩
  · intro h
    have h0 : deploy_configs noErrors "/store" [] Yaml.null false =
        Except.error "AttributeError: object has no attribute get" := rfl
    rw [h0] at h
    exact Except.noConfusion h
  · intro h
    have h0 : check_conflicts "/store" [] Yaml.null =
        Except.error "AttributeError: object has no attribute get" := rfl
    rw [h0] at h
    exact Except.noConfusion h

/-- C10 (corrected): profile loading performs no schema validation: load
returns any parsed document unchanged; for a document that parses as a YAML
mapping and lacks the config_paths key, deployment and conflict detection
return an empty result map and an empty conflict list without raising; but
for a document that is not a mapping (an empty profile file parses to None),
profile.get raises AttributeError in both operations. -/
theorem C10_no_schema_validation (store : List (String × Yaml)) (nm : String)
    (kvs : List (String × Yaml)) (errs : ErrOracle) (configsDir : FPath) (fs : FS)
    (force : Bool)
    (hload : load_profile store nm = some (Yaml.dict kvs))
    (hnokey : dictGet kvs "config_paths" = none) :
    load_profile store nm = some (Yaml.dict kvs) ∧
    getConfigPaths (Yaml.dict kvs) = Except.ok [] ∧
    deploy_configs errs configsDir fs (Yaml.dict kvs) force = Except.ok ([], fs) ∧
    check_conflicts configsDir fs (Yaml.dict kvs) = Except.ok [] ∧
    (∀ doc : Yaml, isYamlDict doc = false →
      deploy_configs errs configsDir fs doc force =
        Except.error "AttributeError: object has no attribute get" ∧
      check_conflicts configsDir fs doc =
        Except.error "AttributeError: object has no attribute get") := by
  have hcp : getConfigPaths (Yaml.dict kvs) = Except.ok [] := by
    simp [getConfigPaths, hnokey]
  refine ⟨hload, hcp, ?_, ?_, ?_⟩
  · simp [deploy_configs, hcp, deploy_configs_items]
  · simp [check_conflicts, hcp, check_conflicts_items]
  · intro doc hdoc
    cases doc with
    | dict kvs2 => simp [isYamlDict] at hdoc
    | str s => exact ⟨rfl, rfl⟩
    | int n => exact ⟨rfl, rfl⟩
    | bool b => exact ⟨rfl, rfl⟩
    | null => exact ⟨rfl, rfl⟩

theorem C10_no_schema_validation_witness :
    load_profile [("plain.yml", Yaml.dict [("os", Yaml.str "macos")])] "plain.yml" =
        some (Yaml.dict [("os", Yaml.str "macos")]) ∧
    getConfigPaths (Yaml.dict [("os", Yaml.str "macos")]) = Except.ok [] ∧
    deploy_configs noErrors "/store" [] (Yaml.dict [("os", Yaml.str "macos")]) false =
        Except.ok ([], []) ∧
    check_conflicts "/store" [] (Yaml.dict [("os", Yaml.str "macos")]) = Except.ok [] ∧
    deploy_configs noErrors "/store" [] (Yaml.str "oops") false =
        Except.error "AttributeError: object has no attribute get" ∧
    check_conflicts "/store" [] (Yaml.str "oops") =
        Except.error "AttributeError: object has no attribute get" := by
  have h := C10_no_schema_validation
    [("plain.yml", Yaml.dict [("os", Yaml.str "macos")])] "plain.yml"
    [("os", Yaml.str "macos")] noErrors "/store" [] false rfl rfl
  exact ⟨h.1, h.2.1, h.2.2.1, h.2.2.2.1,
    (h.2.2.2.2 (Yaml.str "oops") rfl).1, (h.2.2.2.2 (Yaml.str "oops") rfl).2⟩

/-- C3: merging profile A = x:1,y:2 with overlay B = y:3,z:4 yields
x:1,y:3,z:4; with the order reversed the value of y changes while the values
of x and z do not. -/
theorem C3_merge_order :
    merge_profiles storeC3 "A" ["B"] =
      Except.ok (Yaml.dict [("x", Yaml.int 1), ("y", Yaml.int 3), ("z", Yaml.int 4)]) ∧
    merge_profiles storeC3 "B" ["A"] =
      Except.ok (Yaml.dict [("y", Yaml.int 2), ("z", Yaml.int 4), ("x", Yaml.int 1)]) ∧
    dictGet [("x", Yaml.int 1), ("y", Yaml.int 3), ("z", Yaml.int 4)] "y" =
      some (Yaml.int 3) ∧
    dictGet [("y", Yaml.int 2), ("z", Yaml.int 4), ("x", Yaml.int 1)] "y" =
      some (Yaml.int 2) ∧
    dictGet [("x", Yaml.int 1), ("y", Yaml.int 3), ("z", Yaml.int 4)] "x" =
      dictGet [("y", Yaml.int 2), ("z", Yaml.int 4), ("x", Yaml.int 1)] "x" ∧
    dictGet [("x", Yaml.int 1), ("y", Yaml.int 3), ("z", Yaml.int 4)] "z" =
      dictGet [("y", Yaml.int 2), ("z", Yaml.int 4), ("x", Yaml.int 1)] "z" :=
  ⟨rfl, rfl, rfl, rfl, rfl, rfl⟩

theorem existsFS_resolveFS_of_exists {fs : FS} {p : FPath} (h : existsFS fs p = true) :
    existsFS fs (resolveFS fs p) = true := by
  cases hf : findFS fs (resolveFS fs p) with
  | none =>
    unfold existsFS at h
    rw [hf] at h
    exact absurd h (by simp)
  | some e =>
    cases e with
    | file c =>
      have hr : resolveFS fs (resolveFS fs p) = resolveFS fs p :=
        resolveFS_of_not_symlink (by simp [isSymlinkFS, hf])
      simp [existsFS, hr, hf]
    | dir c =>
      have hr : resolveFS fs (resolveFS fs p) = resolveFS fs p :=
        resolveFS_of_not_symlink (by simp [isSymlinkFS, hf])
      simp [existsFS, hr, hf]
    | symlink t =>
      unfold existsFS at h
      rw [hf] at h
      exact absurd h (by simp)

theorem mergeProfilesGo_filter_isSome (store : List (String × Yaml)) :
    ∀ names : List String, ∀ m : Yaml,
      mergeProfilesGo store m names =
        mergeProfilesGo store m (names.filter (fun n => (load_profile store n).isSome)) := by
  intro names
  induction names with
  | nil => intro m; rfl
  | cons n rest ih =>
    intro m
    cases hl : load_profile store n with
    | none =>
      have hf : List.filter (fun n => (load_profile store n).isSome) (n :: rest) =
          List.filter (fun n => (load_profile store n).isSome) rest := by
        simp [List.filter_cons, hl]
      rw [hf]
      show mergeProfilesGo store m (n :: rest) = _
      simp only [mergeProfilesGo, hl]
      exact ih m
    | some a =>
      have hf : List.filter (fun n => (load_profile store n).isSome) (n :: rest) =
          n :: List.filter (fun n => (load_profile store n).isSome) rest := by
        simp [List.filter_cons, hl]
      rw [hf]
      simp only [mergeProfilesGo, hl]
      cases m with
      | dict mkv =>
        cases a with
        | dict akv =>
          show (match mergeDicts mkv akv with
                | Except.error e => Except.error e
                | Except.ok m1 => mergeProfilesGo store (Yaml.dict m1) rest) =
              (match mergeDicts mkv akv with
                | Except.error e => Except.error e
                | Except.ok m1 => mergeProfilesGo store (Yaml.dict m1)
                    (List.filter (fun n => (load_profile store n).isSome) rest))
          cases hm : mergeDicts mkv akv with
          | error e => rfl
          | ok m1 => exact ih (Yaml.dict m1)
        | str s => rfl
        | int i => rfl
        | bool b => rfl
        | null => rfl
      | str s => cases a <;> rfl
      | int i => cases a <;> rfl
      | bool b => cases a <;> rfl
      | null => cases a <;> rfl

/-- C8: merging with overlay names among which some do not exist raises no
error for the missing ones: the result equals the merge over the overlays
that do load, and for a single missing overlay the base document is returned
unchanged. -/
theorem C8_missing_overlay (store : List (String × Yaml)) (base missing : String)
    (names : List String) (m : Yaml)
    (hbase : load_profile store base = some m)
    (hmiss : load_profile store missing = none) :
    merge_profiles store base names =
      merge_profiles store base (names.filter (fun n => (load_profile store n).isSome)) ∧
    merge_profiles store base [missing] = Except.ok m := by
  constructor
  · simp only [merge_profiles, hbase]
    exact mergeProfilesGo_filter_isSome store names m
  · simp only [merge_profiles, hbase, mergeProfilesGo, hmiss]

theorem C8_missing_overlay_witness :
    merge_profiles storeC3 "A" ["nope", "B"] =
      merge_profiles storeC3 "A"
        (["nope", "B"].filter (fun n => (load_profile storeC3 n).isSome)) ∧
    merge_profiles storeC3 "A" ["nope"] =
      Except.ok (Yaml.dict [("x", Yaml.int 1), ("y", Yaml.int 2)]) :=
  C8_missing_overlay storeC3 "A" "nope" ["nope", "B"]
    (Yaml.dict [("x", Yaml.int 1), ("y", Yaml.int 2)]) rfl rfl

/-- C9: a dangling symlink target (is_symlink true, exists false) is reported
as a conflict of kind symlink, while the backup run records none for it (no
backup needed) and copies nothing and appends no log entry, and a forced
deployment unlinks it and creates the new link; so no backup entry is ever
written for such a path. -/
theorem C9_dangling_symlink (configsDir : FPath) (fs : FS) (name tpath : String) (q : FPath)
    (st : BackupState)
    (hfind : findFS fs (expanduser tpath) = some (Entry.symlink q))
    (hdang : existsFS fs (expanduser tpath) = false)
    (hsrc : existsFS fs (configsDir ++ "/" ++ name) = true)
    (hstfs : st.fs = fs) :
    check_conflicts_go configsDir fs [(name, tpath)] =
      [{ name := name, path := expanduser tpath, type := "symlink", is_symlink := true }] ∧
    backup_configs noErrors st [(name, tpath)] = ([(name, none)], st) ∧
    create_symlink noErrors fs (configsDir ++ "/" ++ name) tpath true =
      (true, setFS (eraseFS fs (expanduser tpath)) (expanduser tpath)
        (Entry.symlink (resolveFS fs (configsDir ++ "/" ++ name)))) := by
  have hsym : isSymlinkFS fs (expanduser tpath) = true := by simp [isSymlinkFS, hfind]
  have hne : resolveFS fs (expanduser tpath) ≠ resolveFS fs (configsDir ++ "/" ++ name) := by
    intro h
    have heq := existsFS_congr_resolve h
    rw [hdang, hsrc] at heq
    exact absurd heq (by simp)
  refine ⟨?_, ?_, ?_⟩
  · have hno : ¬ (existsFS fs (configsDir ++ "/" ++ name) = true ∧
        resolveFS fs (expanduser tpath) = resolveFS fs (configsDir ++ "/" ++ name)) :=
      fun h => hne h.2
    simp [check_conflicts_go, hsym, hno]
  · simp [backup_configs, hstfs, hdang]
  · have hsrcr : existsFS fs (resolveFS fs (configsDir ++ "/" ++ name)) = true :=
      existsFS_resolveFS_of_exists hsrc
    simp [create_symlink, hsrcr, hsym, hdang, hne, noErrors]

theorem C9_dangling_symlink_witness :
    check_conflicts_go "/store"
      [("/store/nvim", Entry.dir "conf"), ("/home/user/.config/nvim", Entry.symlink "/gone")]
      [("nvim", "~/.config/nvim")] =
      [{ name := "nvim", path := "/home/user/.config/nvim", type := "symlink",
         is_symlink := true }] ∧
    backup_configs noErrors
      { dir := "/backups/2024", timestamp := "2024", log := [],
        fs := [("/store/nvim", Entry.dir "conf"),
               ("/home/user/.config/nvim", Entry.symlink "/gone")] }
      [("nvim", "~/.config/nvim")] =
      ([("nvim", none)],
       { dir := "/backups/2024", timestamp := "2024", log := [],
         fs := [("/store/nvim", Entry.dir "conf"),
                ("/home/user/.config/nvim", Entry.symlink "/gone")] }) ∧
    create_symlink noErrors
      [("/store/nvim", Entry.dir "conf"), ("/home/user/.config/nvim", Entry.symlink "/gone")]
      ("/store" ++ "/" ++ "nvim") "~/.config/nvim" true =
      (true, [("/home/user/.config/nvim", Entry.symlink "/store/nvim"),
              ("/store/nvim", Entry.dir "conf")]) :=
  C9_dangling_symlink "/store"
    [("/store/nvim", Entry.dir "conf"), ("/home/user/.config/nvim", Entry.symlink "/gone")]
    "nvim" "~/.config/nvim" "/gone"
    { dir := "/backups/2024", timestamp := "2024", log := [],
      fs := [("/store/nvim", Entry.dir "conf"),
             ("/home/user/.config/nvim", Entry.symlink "/gone")] }
    (by decide) (by decide) (by decide) rfl

theorem dictGet_dictSet_self (d : List (String × Yaml)) (k : String) (v : Yaml) :
    dictGet (dictSet d k v) k = some v := by
  induction d with
  | nil => simp [dictSet, dictGet]
  | cons kv rest ih =>
    obtain ⟨a, w⟩ := kv
    by_cases hak : a = k
    · simp [dictSet, hak, dictGet]
    · simp [dictSet, hak, dictGet, ih]

theorem dictGet_dictSet_ne (d : List (String × Yaml)) (k key : String) (v : Yaml)
    (h : key ≠ k) : dictGet (dictSet d k v) key = dictGet d key := by
  induction d with
  | nil =>
    have hk : ¬ k = key := fun hx => h hx.symm
    simp [dictSet, dictGet, hk]
  | cons kv rest ih =>
    obtain ⟨a, w⟩ := kv
    by_cases hak : a = k
    · subst hak
      have hkk : ¬ a = key := fun hx => h hx.symm
      simp [dictSet, dictGet, hkk]
    · by_cases hakey : a = key
      · simp [dictSet, hak, dictGet, hakey, h]
      · simp [dictSet, hak, dictGet, hakey, ih]

theorem mergeItem_preserve {m m1 : List (String × Yaml)} {kv : String × Yaml} {key : String}
    (hne : kv.1 ≠ key) (h : mergeItem m kv = Except.ok m1) :
    dictGet m1 key = dictGet m key := by
  obtain ⟨k0, v0⟩ := kv
  simp only at hne
  by_cases hov : k0 = "overrides"
  · unfold mergeItem at h
    rw [if_pos hov] at h
    injection h with h2
    subst h2
    rfl
  · cases v0 with
    | dict av =>
      unfold mergeItem at h
      rw [if_neg hov] at h
      replace h : (if dictHas m k0 = true then
          match dictGet m k0 with
          | some (Yaml.dict mv) => Except.ok (dictSet m k0 (Yaml.dict (dictUpdate mv av)))
          | _ => Except.error "AttributeError: value has no attribute update"
        else Except.ok (dictSet m k0 (Yaml.dict av))) = Except.ok m1 := h
      by_cases hhas : dictHas m k0 = true
      · rw [if_pos hhas] at h
        cases hg : dictGet m k0 with
        | none =>
          rw [hg] at h
          exact Except.noConfusion h
        | some w =>
          rw [hg] at h
          cases w with
          | dict mv =>
            replace h : Except.ok (dictSet m k0 (Yaml.dict (dictUpdate mv av))) =
                Except.ok m1 := h
            injection h with h2
            subst h2
            exact dictGet_dictSet_ne _ _ _ _ (fun hx => hne hx.symm)
          | str s => exact Except.noConfusion h
          | int i => exact Except.noConfusion h
          | bool b => exact Except.noConfusion h
          | null => exact Except.noConfusion h
      · rw [if_neg hhas] at h
        replace h : Except.ok (dictSet m k0 (Yaml.dict av)) = Except.ok m1 := h
        injection h with h2
        subst h2
        exact dictGet_dictSet_ne _ _ _ _ (fun hx => hne hx.symm)
    | str s =>
      unfold mergeItem at h
      rw [if_neg hov] at h
      replace h : Except.ok (dictSet m k0 (Yaml.str s)) = Except.ok m1 := h
      injection h with h2
      subst h2
      exact dictGet_dictSet_ne _ _ _ _ (fun hx => hne hx.symm)
    | int i =>
      unfold mergeItem at h
      rw [if_neg hov] at h
      replace h : Except.ok (dictSet m k0 (Yaml.int i)) = Except.ok m1 := h
      injection h with h2
      subst h2
      exact dictGet_dictSet_ne _ _ _ _ (fun hx => hne hx.symm)
    | bool b =>
      unfold mergeItem at h
      rw [if_neg hov] at h
      replace h : Except.ok (dictSet m k0 (Yaml.bool b)) = Except.ok m1 := h
      injection h with h2
      subst h2
      exact dictGet_dictSet_ne _ _ _ _ (fun hx => hne hx.symm)
    | null =>
      unfold mergeItem at h
      rw [if_neg hov] at h
      replace h : Except.ok (dictSet m k0 Yaml.null) = Except.ok m1 := h
      injection h with h2
      subst h2
      exact dictGet_dictSet_ne _ _ _ _ (fun hx => hne hx.symm)

theorem mergeItems_preserve (key : String) :
    ∀ rest : List (String × Yaml), ∀ m r : List (String × Yaml),
      (key = "overrides" ∨ key ∉ rest.map Prod.fst) →
      mergeItems m rest = Except.ok r → dictGet r key = dictGet m key := by
  intro rest
  induction rest with
  | nil =>
    intro m r _ h
    unfold mergeItems at h
    injection h with h2
    subst h2
    rfl
  | cons kv tail ih =>
    intro m r hkey h
    unfold mergeItems at h
    cases hme : mergeItem m kv with
    | error e =>
      rw [hme] at h
      exact Except.noConfusion h
    | ok m1 =>
      rw [hme] at h
      replace h : mergeItems m1 tail = Except.ok r := h
      have htail : key = "overrides" ∨ key ∉ tail.map Prod.fst := by
        rcases hkey with hov | hmem
        · exact Or.inl hov
        · exact Or.inr (fun hx => hmem (by simp [hx]))
      have hstep : dictGet m1 key = dictGet m key := by
        obtain ⟨k0, v0⟩ := kv
        by_cases hov : k0 = "overrides"
        · unfold mergeItem at hme
          rw [if_pos hov] at hme
          injection hme with h2
          subst h2
          rfl
        · rcases hkey with hov2 | hmem
          · exact mergeItem_preserve (fun hx => hov (hx.trans hov2)) hme
          · have hne : k0 ≠ key := by
              intro hx
              exact hmem (by simp [← hx])
            exact mergeItem_preserve hne hme
      rw [ih m1 r htail h, hstep]

theorem mergeOverrides_preserve {m a m1 : List (String × Yaml)} {key : String}
    (hne : key ≠ "overrides") (h : mergeOverrides m a = Except.ok m1) :
    dictGet m1 key = dictGet m key := by
  unfold mergeOverrides at h
  cases hg : dictGet a "overrides" with
  | none =>
    rw [hg] at h
    replace h : Except.ok m = Except.ok m1 := h
    injection h with h2
    subst h2
    rfl
  | some av =>
    rw [hg] at h
    replace h : mergeOverridesAux
        (if dictHas m "overrides" = true then m
         else dictSet m "overrides" (Yaml.dict [])) av = Except.ok m1 := h
    by_cases hhas : dictHas m "overrides" = true
    · rw [if_pos hhas] at h
      unfold mergeOverridesAux at h
      cases hg2 : dictGet m "overrides" with
      | none =>
        rw [hg2] at h
        cases av <;> exact Except.noConfusion h
      | some w =>
        rw [hg2] at h
        cases w with
        | dict mo =>
          cases av with
          | dict ao =>
            replace h : Except.ok (dictSet m "overrides" (Yaml.dict (dictUpdate mo ao))) =
                Except.ok m1 := h
            injection h with h2
            subst h2
            exact dictGet_dictSet_ne _ _ _ _ hne
          | str s => exact Except.noConfusion h
          | int i => exact Except.noConfusion h
          | bool b => exact Except.noConfusion h
          | null => exact Except.noConfusion h
        | str s => cases av <;> exact Except.noConfusion h
        | int i => cases av <;> exact Except.noConfusion h
        | bool b => cases av <;> exact Except.noConfusion h
        | null => cases av <;> exact Except.noConfusion h
    · rw [if_neg hhas] at h
      unfold mergeOverridesAux at h
      rw [dictGet_dictSet_self m "overrides" (Yaml.dict [])] at h
      cases av with
      | dict ao =>
        replace h : Except.ok (dictSet (dictSet m "overrides" (Yaml.dict []))
            "overrides" (Yaml.dict (dictUpdate [] ao))) = Except.ok m1 := h
        injection h with h2
        subst h2
        rw [dictGet_dictSet_ne _ _ _ _ hne, dictGet_dictSet_ne _ _ _ _ hne]
      | str s => exact Except.noConfusion h
      | int i => exact Except.noConfusion h
      | bool b => exact Except.noConfusion h
      | null => exact Except.noConfusion h

theorem dictGet_eq_none_of_notMem {d : List (String × Yaml)} {key : String}
    (h : key ∉ d.map Prod.fst) : dictGet d key = none := by
  induction d with
  | nil => rfl
  | cons kv rest ih =>
    obtain ⟨a, w⟩ := kv
    have ha : ¬ a = key := by
      intro hx
      exact h (by simp [hx])
    have hrest : key ∉ rest.map Prod.fst := fun hx => h (by simp [hx])
    simp [dictGet, ha, ih hrest]

theorem dictGet_dictUpdate (key : String) :
    ∀ av mv : List (String × Yaml), (av.map Prod.fst).Nodup →
      dictGet (dictUpdate mv av) key =
        match dictGet av key with
        | some w => some w
        | none => dictGet mv key := by
  intro av
  induction av with
  | nil => intro mv _; rfl
  | cons kv tail ih =>
    intro mv hnodup
    obtain ⟨k0, v0⟩ := kv
    simp only [List.map_cons, List.nodup_cons] at hnodup
    obtain ⟨hnotin, hnd⟩ := hnodup
    have hstep : dictUpdate mv ((k0, v0) :: tail) = dictUpdate (dictSet mv k0 v0) tail := rfl
    rw [hstep, ih (dictSet mv k0 v0) hnd]
    by_cases hk0 : k0 = key
    · subst hk0
      have htail : dictGet tail k0 = none := dictGet_eq_none_of_notMem hnotin
      rw [htail]
      simp [dictGet, dictGet_dictSet_self]
    · have : dictGet ((k0, v0) :: tail) key = dictGet tail key := by simp [dictGet, hk0]
      rw [this]
      cases hg : dictGet tail key with
      | some w => rfl
      | none => exact dictGet_dictSet_ne _ _ _ _ (fun hx => hk0 hx.symm)

theorem mergeItems_lookup (k : String) (hk : k ≠ "overrides") :
    ∀ a : List (String × Yaml), ∀ m : List (String × Yaml),
      (a.map Prod.fst).Nodup →
      ∀ v, dictGet a k = some v →
      ((∀ av mv, v = Yaml.dict av → dictGet m k = some (Yaml.dict mv) →
        ∀ r, mergeItems m a = Except.ok r →
          dictGet r k = some (Yaml.dict (dictUpdate mv av))) ∧
       (∀ av w, v = Yaml.dict av → dictGet m k = some w → isYamlDict w = false →
         ∃ e, mergeItems m a = Except.error e) ∧
       ((isYamlDict v = false ∨ dictGet m k = none) →
         ∀ r, mergeItems m a = Except.ok r → dictGet r k = some v)) := by
  intro a
  induction a with
  | nil =>
    intro m _ v hv
    simp [dictGet] at hv
  | cons kv tail ih =>
    intro m hnodup v hv
    obtain ⟨k0, v0⟩ := kv
    simp only [List.map_cons, List.nodup_cons] at hnodup
    obtain ⟨hnotin, hnd⟩ := hnodup
    by_cases hk0 : k0 = k
    · subst hk0
      have hveq : v0 = v := by
        have := hv
        simp [dictGet] at this
        exact this
      subst hveq
      refine ⟨?_, ?_, ?_⟩
      · intro av mv hvav hmk r hr
        subst hvav
        have hhas : dictHas m k0 = true := by simp [dictHas, hmk]
        have hitem : mergeItem m (k0, Yaml.dict av) =
            Except.ok (dictSet m k0 (Yaml.dict (dictUpdate mv av))) := by
          unfold mergeItem
          rw [if_neg hk]
          show (if dictHas m k0 = true then
              match dictGet m k0 with
              | some (Yaml.dict mv) => Except.ok (dictSet m k0 (Yaml.dict (dictUpdate mv av)))
              | _ => Except.error "AttributeError: value has no attribute update"
            else Except.ok (dictSet m k0 (Yaml.dict av))) = _
          rw [if_pos hhas, hmk]
        unfold mergeItems at hr
        rw [hitem] at hr
        replace hr : mergeItems (dictSet m k0 (Yaml.dict (dictUpdate mv av))) tail =
            Except.ok r := hr
        have hpres := mergeItems_preserve k0 tail _ r (Or.inr hnotin) hr
        rw [hpres, dictGet_dictSet_self]
      · intro av w hvav hmk hwnd
        subst hvav
        have hhas : dictHas m k0 = true := by simp [dictHas, hmk]
        have hitem : mergeItem m (k0, Yaml.dict av) =
            Except.error "AttributeError: value has no attribute update" := by
          unfold mergeItem
          rw [if_neg hk]
          show (if dictHas m k0 = true then
              match dictGet m k0 with
              | some (Yaml.dict mv) => Except.ok (dictSet m k0 (Yaml.dict (dictUpdate mv av)))
              | _ => Except.error "AttributeError: value has no attribute update"
            else Except.ok (dictSet m k0 (Yaml.dict av))) = _
          rw [if_pos hhas, hmk]
          cases w with
          | dict mo => simp [isYamlDict] at hwnd
          | str s => rfl
          | int i => rfl
          | bool b => rfl
          | null => rfl
        refine ⟨"AttributeError: value has no attribute update", ?_⟩
        unfold mergeItems
        rw [hitem]
      · intro hcase r hr
        have hitem : mergeItem m (k0, v0) = Except.ok (dictSet m k0 v0) := by
          cases v0 with
          | dict av =>
            rcases hcase with hnd2 | hnone
            · simp [isYamlDict] at hnd2
            · have hhas : dictHas m k0 = false := by simp [dictHas, hnone]
              unfold mergeItem
              rw [if_neg hk]
              show (if dictHas m k0 = true then
                  match dictGet m k0 with
                  | some (Yaml.dict mv) =>
                    Except.ok (dictSet m k0 (Yaml.dict (dictUpdate mv av)))
                  | _ => Except.error "AttributeError: value has no attribute update"
                else Except.ok (dictSet m k0 (Yaml.dict av))) = _
              rw [hhas]
              simp
          | str s => unfold mergeItem; rw [if_neg hk]
          | int i => unfold mergeItem; rw [if_neg hk]
          | bool b => unfold mergeItem; rw [if_neg hk]
          | null => unfold mergeItem; rw [if_neg hk]
        unfold mergeItems at hr
        rw [hitem] at hr
        replace hr : mergeItems (dictSet m k0 v0) tail = Except.ok r := hr
        have hpres := mergeItems_preserve k0 tail _ r (Or.inr hnotin) hr
        rw [hpres, dictGet_dictSet_self]
    · have hvtail : dictGet tail k = some v := by
        have := hv
        simp [dictGet, hk0] at this
        exact this
      cases hme : mergeItem m (k0, v0) with
      | error e =>
        refine ⟨?_, ?_, ?_⟩
        · intro av mv _ _ r hr
          unfold mergeItems at hr
          rw [hme] at hr
          exact Except.noConfusion hr
        · intro av w _ _ _
          refine ⟨e, ?_⟩
          unfold mergeItems
          rw [hme]
        · intro _ r hr
          unfold mergeItems at hr
          rw [hme] at hr
          exact Except.noConfusion hr
      | ok m1 =>
        have hpres : dictGet m1 k = dictGet m k :=
          mergeItem_preserve (show ((k0, v0) : String × Yaml).1 ≠ k from hk0) hme
        have IH := ih m1 hnd v hvtail
        refine ⟨?_, ?_, ?_⟩
        · intro av mv hvav hmk r hr
          unfold mergeItems at hr
          rw [hme] at hr
          replace hr : mergeItems m1 tail = Except.ok r := hr
          exact IH.1 av mv hvav (by rw [hpres]; exact hmk) r hr
        · intro av w hvav hmk hwnd
          obtain ⟨e, he⟩ := IH.2.1 av w hvav (by rw [hpres]; exact hmk) hwnd
          refine ⟨e, ?_⟩
          unfold mergeItems
          rw [hme]
          exact he
        · intro hcase r hr
          unfold mergeItems at hr
          rw [hme] at hr
          replace hr : mergeItems m1 tail = Except.ok r := hr
          refine IH.2.2 ?_ r hr
          rcases hcase with hnd2 | hnone
          · exact Or.inl hnd2
          · exact Or.inr (by rw [hpres]; exact hnone)

theorem mergeOverrides_both {m a mo ao : List (String × Yaml)}
    (hga : dictGet a "overrides" = some (Yaml.dict ao))
    (hgm : dictGet m "overrides" = some (Yaml.dict mo)) :
    mergeOverrides m a =
      Except.ok (dictSet m "overrides" (Yaml.dict (dictUpdate mo ao))) := by
  unfold mergeOverrides
  rw [hga]
  show mergeOverridesAux
      (if dictHas m "overrides" = true then m
       else dictSet m "overrides" (Yaml.dict [])) (Yaml.dict ao) = _
  have hhas : dictHas m "overrides" = true := by simp [dictHas, hgm]
  rw [if_pos hhas]
  unfold mergeOverridesAux
  rw [hgm]

theorem mergeOverrides_new {m a ao : List (String × Yaml)}
    (hga : dictGet a "overrides" = some (Yaml.dict ao))
    (hgm : dictGet m "overrides" = none) :
    mergeOverrides m a =
      Except.ok (dictSet (dictSet m "overrides" (Yaml.dict []))
        "overrides" (Yaml.dict (dictUpdate [] ao))) := by
  unfold mergeOverrides
  rw [hga]
  show mergeOverridesAux
      (if dictHas m "overrides" = true then m
       else dictSet m "overrides" (Yaml.dict [])) (Yaml.dict ao) = _
  have hhas : dictHas m "overrides" = false := by simp [dictHas, hgm]
  rw [hhas, if_neg (by simp : ¬ (false = true))]
  unfold mergeOverridesAux
  rw [dictGet_dictSet_self]

theorem merge_profiles_single {store : List (String × Yaml)} {base ov : String}
    {m a : List (String × Yaml)}
    (hbase : load_profile store base = some (Yaml.dict m))
    (hov : load_profile store ov = some (Yaml.dict a)) :
    merge_profiles store base [ov] =
      match mergeDicts m a with
      | Except.error e => Except.error e
      | Except.ok m1 => Except.ok (Yaml.dict m1) := by
  unfold merge_profiles
  rw [hbase]
  show mergeProfilesGo store (Yaml.dict m) [ov] = _
  unfold mergeProfilesGo
  rw [hov]
  show (match mergeDicts m a with
        | Except.error e => Except.error e
        | Except.ok m1 => mergeProfilesGo store (Yaml.dict m1) []) = _
  cases mergeDicts m a with
  | error e => rfl
  | ok m1 => rfl

/-- C4 (corrected): for every top-level overlay key other than overrides, if
both base and overlay hold mapping values the merge combines them entry by
entry with the overlay entry winning on collision; if the overlay value is
non-mapping or the key is absent from the base, the overlay value replaces
the base value wholesale; but if the overlay value is a mapping while the
base holds a non-mapping value at that key, the merge raises AttributeError
instead of replacing.  The overrides field is mapping-merged whenever the
overlay overrides mapping meets a base overrides mapping or an absent one. -/
theorem C4_merge_semantics (store : List (String × Yaml)) (base ov : String)
    (m a : List (String × Yaml)) (k : String)
    (hbase : load_profile store base = some (Yaml.dict m))
    (hov : load_profile store ov = some (Yaml.dict a))
    (ha : (a.map Prod.fst).Nodup) (hk : k ≠ "overrides") :
    (∀ av mv, dictGet a k = some (Yaml.dict av) → dictGet m k = some (Yaml.dict mv) →
      ∀ r, merge_profiles store base [ov] = Except.ok (Yaml.dict r) →
        dictGet r k = some (Yaml.dict (dictUpdate mv av))) ∧
    (∀ av w, dictGet a k = some (Yaml.dict av) → dictGet m k = some w →
      isYamlDict w = false →
      ∃ e, merge_profiles store base [ov] = Except.error e) ∧
    (∀ v, dictGet a k = some v → (isYamlDict v = false ∨ dictGet m k = none) →
      ∀ r, merge_profiles store base [ov] = Except.ok (Yaml.dict r) →
        dictGet r k = some v) ∧
    (∀ mv av key2, ((av : List (String × Yaml)).map Prod.fst).Nodup →
      dictGet (dictUpdate mv av) key2 =
        match dictGet av key2 with
        | some w => some w
        | none => dictGet mv key2) ∧
    (∀ ao mo, dictGet a "overrides" = some (Yaml.dict ao) →
      dictGet m "overrides" = some (Yaml.dict mo) →
      ∀ r, merge_profiles store base [ov] = Except.ok (Yaml.dict r) →
        dictGet r "overrides" = some (Yaml.dict (dictUpdate mo ao))) ∧
    (∀ ao, dictGet a "overrides" = some (Yaml.dict ao) →
      dictGet m "overrides" = none →
      ∀ r, merge_profiles store base [ov] = Except.ok (Yaml.dict r) →
        dictGet r "overrides" = some (Yaml.dict (dictUpdate [] ao))) := by
  have hsingle := merge_profiles_single hbase hov
  refine ⟨?_, ?_, ?_, ?_, ?_, ?_⟩
  · intro av mv hga hgm r hr
    rw [hsingle] at hr
    cases hd : mergeDicts m a with
    | error e =>
      rw [hd] at hr
      exact Except.noConfusion hr
    | ok m1 =>
      rw [hd] at hr
      replace hr : Except.ok (Yaml.dict m1) = Except.ok (Yaml.dict r) := hr
      injection hr with hr2
      injection hr2 with hr3
      subst hr3
      unfold mergeDicts at hd
      cases hmo : mergeOverrides m a with
      | error e =>
        rw [hmo] at hd
        exact Except.noConfusion hd
      | ok m2 =>
        rw [hmo] at hd
        replace hd : mergeItems m2 a = Except.ok m1 := hd
        have hm2k : dictGet m2 k = dictGet m k := mergeOverrides_preserve hk hmo
        exact (mergeItems_lookup k hk a m2 ha _ hga).1 av mv rfl
          (by rw [hm2k]; exact hgm) m1 hd
  · intro av w hga hgm hwnd
    cases hmo : mergeOverrides m a with
    | error e =>
      refine ⟨e, ?_⟩
      rw [hsingle]
      have hde : mergeDicts m a = Except.error e := by
        unfold mergeDicts
        rw [hmo]
      rw [hde]
    | ok m2 =>
      have hm2k : dictGet m2 k = dictGet m k := mergeOverrides_preserve hk hmo
      obtain ⟨e, he⟩ := (mergeItems_lookup k hk a m2 ha _ hga).2.1 av w rfl
        (by rw [hm2k]; exact hgm) hwnd
      refine ⟨e, ?_⟩
      rw [hsingle]
      have hde : mergeDicts m a = Except.error e := by
        unfold mergeDicts
        rw [hmo]
        exact he
      rw [hde]
  · intro v hga hcase r hr
    rw [hsingle] at hr
    cases hd : mergeDicts m a with
    | error e =>
      rw [hd] at hr
      exact Except.noConfusion hr
    | ok m1 =>
      rw [hd] at hr
      replace hr : Except.ok (Yaml.dict m1) = Except.ok (Yaml.dict r) := hr
      injection hr with hr2
      injection hr2 with hr3
      subst hr3
      unfold mergeDicts at hd
      cases hmo : mergeOverrides m a with
      | error e =>
        rw [hmo] at hd
        exact Except.noConfusion hd
      | ok m2 =>
        rw [hmo] at hd
        replace hd : mergeItems m2 a = Except.ok m1 := hd
        have hm2k : dictGet m2 k = dictGet m k := mergeOverrides_preserve hk hmo
        refine (mergeItems_lookup k hk a m2 ha v hga).2.2 ?_ m1 hd
        rcases hcase with hnd | hnone
        · exact Or.inl hnd
        · exact Or.inr (by rw [hm2k]; exact hnone)
  · intro mv av key2 hnd
    exact dictGet_dictUpdate key2 av mv hnd
  · intro ao mo hga hgm r hr
    rw [hsingle] at hr
    cases hd : mergeDicts m a with
    | error e =>
      rw [hd] at hr
      exact Except.noConfusion hr
    | ok m1 =>
      rw [hd] at hr
      replace hr : Except.ok (Yaml.dict m1) = Except.ok (Yaml.dict r) := hr
      injection hr with hr2
      injection hr2 with hr3
      subst hr3
      unfold mergeDicts at hd
      rw [mergeOverrides_both hga hgm] at hd
      replace hd : mergeItems (dictSet m "overrides" (Yaml.dict (dictUpdate mo ao))) a =
          Except.ok m1 := hd
      have hpres := mergeItems_preserve "overrides" a _ m1 (Or.inl rfl) hd
      rw [hpres, dictGet_dictSet_self]
  · intro ao hga hgm r hr
    rw [hsingle] at hr
    cases hd : mergeDicts m a with
    | error e =>
      rw [hd] at hr
      exact Except.noConfusion hr
    | ok m1 =>
      rw [hd] at hr
      replace hr : Except.ok (Yaml.dict m1) = Except.ok (Yaml.dict r) := hr
      injection hr with hr2
      injection hr2 with hr3
      subst hr3
      unfold mergeDicts at hd
      rw [mergeOverrides_new hga hgm] at hd
      replace hd : mergeItems (dictSet (dictSet m "overrides" (Yaml.dict []))
          "overrides" (Yaml.dict (dictUpdate [] ao))) a = Except.ok m1 := hd
      have hpres := mergeItems_preserve "overrides" a _ m1 (Or.inl rfl) hd
      rw [hpres, dictGet_dictSet_self]

/-- C4 counterexample: base holds a = 1 (non-mapping) while the overlay holds
a = (b: 2) (a mapping); the claim predicts wholesale replacement by the
overlay value, but the merge raises AttributeError: the code reaches
merged[key].update(value) with a non-mapping base value. -/
theorem C4_counterexample :
    merge_profiles
        [("base", Yaml.dict [("a", Yaml.int 1)]),
         ("ov", Yaml.dict [("a", Yaml.dict [("b", Yaml.int 2)])])]
        "base" ["ov"] =
      Except.error "AttributeError: value has no attribute update" ∧
    merge_profiles
        [("base", Yaml.dict [("a", Yaml.int 1)]),
         ("ov", Yaml.dict [("a", Yaml.dict [("b", Yaml.int 2)])])]
        "base" ["ov"] ≠
      Except.ok (Yaml.dict [("a", Yaml.dict [("b", Yaml.int 2)])]) := by
  refine ⟨rfl, ?_⟩
  intro h
  have h0 : merge_profiles
      [("base", Yaml.dict [("a", Yaml.int 1)]),
       ("ov", Yaml.dict [("a", Yaml.dict [("b", Yaml.int 2)])])]
      "base" ["ov"] =
      Except.error "AttributeError: value has no attribute update" := rfl
  rw [h0] at h
  exact Except.noConfusion h

theorem C4_merge_semantics_witness :
    dictGet [("a", Yaml.dict [("p", Yaml.int 1), ("r", Yaml.int 3)]),
             ("overrides", Yaml.dict [("o", Yaml.int 1), ("u", Yaml.int 2)]),
             ("w", Yaml.int 7)] "a" =
      some (Yaml.dict (dictUpdate [("p", Yaml.int 1)] [("r", Yaml.int 3)])) ∧
    dictGet [("a", Yaml.dict [("p", Yaml.int 1), ("r", Yaml.int 3)]),
             ("overrides", Yaml.dict [("o", Yaml.int 1), ("u", Yaml.int 2)]),
             ("w", Yaml.int 7)] "overrides" =
      some (Yaml.dict (dictUpdate [("o", Yaml.int 1)] [("u", Yaml.int 2)])) :=
  ⟨(C4_merge_semantics
      [("base", Yaml.dict [("a", Yaml.dict [("p", Yaml.int 1)]),
                           ("overrides", Yaml.dict [("o", Yaml.int 1)])]),
       ("ov", Yaml.dict [("a", Yaml.dict [("r", Yaml.int 3)]), ("w", Yaml.int 7),
                         ("overrides", Yaml.dict [("u", Yaml.int 2)])])]
      "base" "ov"
      [("a", Yaml.dict [("p", Yaml.int 1)]), ("overrides", Yaml.dict [("o", Yaml.int 1)])]
      [("a", Yaml.dict [("r", Yaml.int 3)]), ("w", Yaml.int 7),
       ("overrides", Yaml.dict [("u", Yaml.int 2)])]
      "a" rfl rfl (by decide) (by decide)).1
      [("r", Yaml.int 3)] [("p", Yaml.int 1)] rfl rfl
      [("a", Yaml.dict [("p", Yaml.int 1), ("r", Yaml.int 3)]),
       ("overrides", Yaml.dict [("o", Yaml.int 1), ("u", Yaml.int 2)]),
       ("w", Yaml.int 7)] rfl,
   (C4_merge_semantics
      [("base", Yaml.dict [("a", Yaml.dict [("p", Yaml.int 1)]),
                           ("overrides", Yaml.dict [("o", Yaml.int 1)])]),
       ("ov", Yaml.dict [("a", Yaml.dict [("r", Yaml.int 3)]), ("w", Yaml.int 7),
                         ("overrides", Yaml.dict [("u", Yaml.int 2)])])]
      "base" "ov"
      [("a", Yaml.dict [("p", Yaml.int 1)]), ("overrides", Yaml.dict [("o", Yaml.int 1)])]
      [("a", Yaml.dict [("r", Yaml.int 3)]), ("w", Yaml.int 7),
       ("overrides", Yaml.dict [("u", Yaml.int 2)])]
      "a" rfl rfl (by decide) (by decide)).2.2.2.2.1
      [("u", Yaml.int 2)] [("o", Yaml.int 1)] rfl rfl
      [("a", Yaml.dict [("p", Yaml.int 1), ("r", Yaml.int 3)]),
       ("overrides", Yaml.dict [("o", Yaml.int 1), ("u", Yaml.int 2)]),
       ("w", Yaml.int 7)] rfl⟩

/-- C7: deployment records a result for every entry in order and continues
through all entries regardless of individual failures; a missing store source
records false for that name without attempting a link (the filesystem passed
on is untouched by that entry); and a filesystem error during removal or link
creation inside create_symlink surfaces as a false result instead of an
exception: a removal failure mutates nothing, and a link-creation failure
after a successful removal leaves only the removal visible. -/
theorem C7_deploy_error_isolation (errs : ErrOracle) (configsDir : FPath) (force : Bool) :
    (∀ fs : FS, ∀ cfg : List (String × String),
      (deploy_configs_go errs configsDir force fs cfg).1.map Prod.fst =
        cfg.map Prod.fst) ∧
    (∀ fs : FS, ∀ name tpath : String, ∀ rest : List (String × String),
      existsFS fs (configsDir ++ "/" ++ name) = false →
      deploy_configs_go errs configsDir force fs ((name, tpath) :: rest) =
        ((name, false) :: (deploy_configs_go errs configsDir force fs rest).1,
         (deploy_configs_go errs configsDir force fs rest).2)) ∧
    (∀ fs : FS, ∀ source tpath : String,
      existsFS fs (resolveFS fs source) = true →
      (existsFS fs (expanduser tpath) || isSymlinkFS fs (expanduser tpath)) = true →
      ¬ (isSymlinkFS fs (expanduser tpath) = true ∧
         resolveFS fs (expanduser tpath) = resolveFS fs source) →
      (if isSymlinkFS fs (expanduser tpath) = true then
         errs.unlinkFails (expanduser tpath)
       else if isDirFS fs (expanduser tpath) = true then
         errs.rmtreeFails (expanduser tpath)
       else errs.unlinkFails (expanduser tpath)) = true →
      create_symlink errs fs source tpath true = (false, fs)) ∧
    (∀ fs : FS, ∀ source tpath : String,
      existsFS fs (resolveFS fs source) = true →
      (existsFS fs (expanduser tpath) || isSymlinkFS fs (expanduser tpath)) = true →
      ¬ (isSymlinkFS fs (expanduser tpath) = true ∧
         resolveFS fs (expanduser tpath) = resolveFS fs source) →
      (if isSymlinkFS fs (expanduser tpath) = true then
         errs.unlinkFails (expanduser tpath)
       else if isDirFS fs (expanduser tpath) = true then
         errs.rmtreeFails (expanduser tpath)
       else errs.unlinkFails (expanduser tpath)) = false →
      errs.mkdirFails (parentOf (expanduser tpath)) = false →
      errs.symlinkFails (expanduser tpath) = true →
      create_symlink errs fs source tpath true =
        (false, eraseFS fs (expanduser tpath))) := by
  refine ⟨?_, ?_, ?_, ?_⟩
  · intro fs cfg
    induction cfg generalizing fs with
    | nil => rfl
    | cons it rest ih =>
      obtain ⟨name, tpath⟩ := it
      by_cases h : existsFS fs (configsDir ++ "/" ++ name) = true
      · simp [deploy_configs_go, h, ih]
      · simp [deploy_configs_go, h, ih]
  · intro fs name tpath rest h
    simp [deploy_configs_go, h]
  · intro fs source tpath hsrc houter hnoop hrem
    simp [create_symlink, hsrc, houter, hnoop, hrem]
  · intro fs source tpath hsrc houter hnoop hrem hmk hln
    simp [create_symlink, hsrc, houter, hnoop, hrem, hmk, hln]

theorem C7_deploy_error_isolation_witness :
    deploy_configs_go noErrors "/store" true [] [("zshrc", "~/.zshrc")] =
      ([("zshrc", false)], []) ∧
    create_symlink
      { unlinkFails := fun _ => true, rmtreeFails := fun _ => false,
        mkdirFails := fun _ => false, symlinkFails := fun _ => false,
        copyFails := fun _ => false }
      [("/store/zshrc", Entry.file "s"), ("/home/user/.zshrc", Entry.file "old")]
      "/store/zshrc" "~/.zshrc" true =
      (false, [("/store/zshrc", Entry.file "s"), ("/home/user/.zshrc", Entry.file "old")]) ∧
    create_symlink
      { unlinkFails := fun _ => false, rmtreeFails := fun _ => false,
        mkdirFails := fun _ => false, symlinkFails := fun _ => true,
        copyFails := fun _ => false }
      [("/store/zshrc", Entry.file "s"), ("/home/user/.zshrc", Entry.file "old")]
      "/store/zshrc" "~/.zshrc" true =
      (false, [("/store/zshrc", Entry.file "s")]) :=
  ⟨(C7_deploy_error_isolation noErrors "/store" true).2.1 [] "zshrc" "~/.zshrc" []
      (by decide),
   (C7_deploy_error_isolation
      { unlinkFails := fun _ => true, rmtreeFails := fun _ => false,
        mkdirFails := fun _ => false, symlinkFails := fun _ => false,
        copyFails := fun _ => false } "/store" true).2.2.1
      [("/store/zshrc", Entry.file "s"), ("/home/user/.zshrc", Entry.file "old")]
      "/store/zshrc" "~/.zshrc" (by decide) (by decide) (by decide) (by decide),
   (C7_deploy_error_isolation
      { unlinkFails := fun _ => false, rmtreeFails := fun _ => false,
        mkdirFails := fun _ => false, symlinkFails := fun _ => true,
        copyFails := fun _ => false } "/store" true).2.2.2
      [("/store/zshrc", Entry.file "s"), ("/home/user/.zshrc", Entry.file "old")]
      "/store/zshrc" "~/.zshrc" (by decide) (by decide) (by decide) (by decide)
      (by decide) (by decide)⟩

/-- C6: backup failures are isolated per item: with three existing plain-file
targets whose copy raises exactly for the middle one, the run-level call
returns true, false, true in order (the failure becomes a false result, it is
not raised), the session continues through the remaining items, and the
in-memory log serialized by save_backup_log gains exactly the entries of the
two successful items, in order, with no entry for the failed one. -/
theorem C6_backup_partial_failure (errs : ErrOracle) (st : BackupState)
    (nA pA nB pB nC pC cA cB cC : String)
    (hnA : nA ≠ "") (hnC : nC ≠ "")
    (hfA : findFS st.fs (expanduser pA) = some (Entry.file cA))
    (hfB : findFS st.fs (expanduser pB) = some (Entry.file cB))
    (hfC : findFS st.fs (expanduser pC) = some (Entry.file cC))
    (hcA : errs.copyFails (expanduser pA) = false)
    (hcB : errs.copyFails (expanduser pB) = true)
    (hcC : errs.copyFails (expanduser pC) = false)
    (hBA : expanduser pB ≠ st.dir ++ "/" ++ nA)
    (hCA : expanduser pC ≠ st.dir ++ "/" ++ nA) :
    backup_configs errs st [(nA, pA), (nB, pB), (nC, pC)] =
      ([(nA, some true), (nB, some false), (nC, some true)],
       { dir := st.dir, timestamp := st.timestamp,
         log := st.log ++
           [{ source := expanduser pA, destination := st.dir ++ "/" ++ nA,
              type := "file", timestamp := st.timestamp },
            { source := expanduser pC, destination := st.dir ++ "/" ++ nC,
              type := "file", timestamp := st.timestamp }],
         fs := setFS (setFS st.fs (st.dir ++ "/" ++ nA) (Entry.file cA))
                 (st.dir ++ "/" ++ nC) (Entry.file cC) }) := by
  have hexA : existsFS st.fs (expanduser pA) = true := existsFS_of_file hfA
  have hdirA : isDirFS st.fs (expanduser pA) = false := isDirFS_of_file hfA
  have hresA : resolveFS st.fs (expanduser pA) = expanduser pA :=
    resolveFS_of_not_symlink (by simp [isSymlinkFS, hfA])
  have hbA : backup_file errs st (expanduser pA) (some nA) =
      (true, { dir := st.dir, timestamp := st.timestamp,
               log := st.log ++
                 [{ source := expanduser pA, destination := st.dir ++ "/" ++ nA,
                    type := "file", timestamp := st.timestamp }],
               fs := setFS st.fs (st.dir ++ "/" ++ nA) (Entry.file cA) }) := by
    simp [backup_file, hexA, hdirA, hresA, hfA, hcA, hnA]
  have hfB1 : findFS (setFS st.fs (st.dir ++ "/" ++ nA) (Entry.file cA))
      (expanduser pB) = some (Entry.file cB) := by
    rw [findFS_setFS, if_neg hBA]
    exact hfB
  have hexB1 : existsFS (setFS st.fs (st.dir ++ "/" ++ nA) (Entry.file cA))
      (expanduser pB) = true := existsFS_of_file hfB1
  have hresB1 : resolveFS (setFS st.fs (st.dir ++ "/" ++ nA) (Entry.file cA))
      (expanduser pB) = expanduser pB :=
    resolveFS_of_not_symlink (by simp [isSymlinkFS, hfB1])
  have hfC1 : findFS (setFS st.fs (st.dir ++ "/" ++ nA) (Entry.file cA))
      (expanduser pC) = some (Entry.file cC) := by
    rw [findFS_setFS, if_neg hCA]
    exact hfC
  have hexC1 : existsFS (setFS st.fs (st.dir ++ "/" ++ nA) (Entry.file cA))
      (expanduser pC) = true := existsFS_of_file hfC1
  have hdirC1 : isDirFS (setFS st.fs (st.dir ++ "/" ++ nA) (Entry.file cA))
      (expanduser pC) = false := isDirFS_of_file hfC1
  have hresC1 : resolveFS (setFS st.fs (st.dir ++ "/" ++ nA) (Entry.file cA))
      (expanduser pC) = expanduser pC :=
    resolveFS_of_not_symlink (by simp [isSymlinkFS, hfC1])
  have hbB : backup_file errs
      { dir := st.dir, timestamp := st.timestamp,
        log := st.log ++
          [{ source := expanduser pA, destination := st.dir ++ "/" ++ nA,
             type := "file", timestamp := st.timestamp }],
        fs := setFS st.fs (st.dir ++ "/" ++ nA) (Entry.file cA) }
      (expanduser pB) (some nB) =
      (false,
       { dir := st.dir, timestamp := st.timestamp,
         log := st.log ++
           [{ source := expanduser pA, destination := st.dir ++ "/" ++ nA,
              type := "file", timestamp := st.timestamp }],
         fs := setFS st.fs (st.dir ++ "/" ++ nA) (Entry.file cA) }) := by
    simp [backup_file, hexB1, hresB1, hfB1, hcB]
  have hbC : backup_file errs
      { dir := st.dir, timestamp := st.timestamp,
        log := st.log ++
          [{ source := expanduser pA, destination := st.dir ++ "/" ++ nA,
             type := "file", timestamp := st.timestamp }],
        fs := setFS st.fs (st.dir ++ "/" ++ nA) (Entry.file cA) }
      (expanduser pC) (some nC) =
      (true,
       { dir := st.dir, timestamp := st.timestamp,
         log := (st.log ++
           [{ source := expanduser pA, destination := st.dir ++ "/" ++ nA,
              type := "file", timestamp := st.timestamp }]) ++
           [{ source := expanduser pC, destination := st.dir ++ "/" ++ nC,
              type := "file", timestamp := st.timestamp }],
         fs := setFS (setFS st.fs (st.dir ++ "/" ++ nA) (Entry.file cA))
                 (st.dir ++ "/" ++ nC) (Entry.file cC) }) := by
    simp [backup_file, hexC1, hdirC1, hresC1, hfC1, hcC, hnC]
  simp [backup_configs, hexA, hbA, hexB1, hbB, hexC1, hbC, List.append_assoc]

theorem C6_backup_partial_failure_witness :
    backup_configs
      { unlinkFails := fun _ => false, rmtreeFails := fun _ => false,
        mkdirFails := fun _ => false, symlinkFails := fun _ => false,
        copyFails := fun p => p == "/home/user/.b" }
      { dir := "/backups/ts", timestamp := "ts", log := [],
        fs := [("/home/user/.a", Entry.file "x"), ("/home/user/.b", Entry.file "y"),
               ("/home/user/.c", Entry.file "z")] }
      [("a", "~/.a"), ("b", "~/.b"), ("c", "~/.c")] =
      ([("a", some true), ("b", some false), ("c", some true)],
       { dir := "/backups/ts", timestamp := "ts",
         log := [{ source := "/home/user/.a", destination := "/backups/ts/a",
                   type := "file", timestamp := "ts" },
                 { source := "/home/user/.c", destination := "/backups/ts/c",
                   type := "file", timestamp := "ts" }],
         fs := [("/backups/ts/c", Entry.file "z"), ("/backups/ts/a", Entry.file "x"),
                ("/home/user/.a", Entry.file "x"), ("/home/user/.b", Entry.file "y"),
                ("/home/user/.c", Entry.file "z")] }) :=
  C6_backup_partial_failure
    { unlinkFails := fun _ => false, rmtreeFails := fun _ => false,
      mkdirFails := fun _ => false, symlinkFails := fun _ => false,
      copyFails := fun p => p == "/home/user/.b" }
    { dir := "/backups/ts", timestamp := "ts", log := [],
      fs := [("/home/user/.a", Entry.file "x"), ("/home/user/.b", Entry.file "y"),
             ("/home/user/.c", Entry.file "z")] }
    "a" "~/.a" "b" "~/.b" "c" "~/.c" "x" "y" "z"
    (by decide) (by decide) (by decide) (by decide) (by decide) (by decide)
    (by decide) (by decide) (by decide) (by decide)

theorem isSymlinkFS_congr_find {fs fs' : FS} {p : FPath}
    (h : findFS fs' p = findFS fs p) : isSymlinkFS fs' p = isSymlinkFS fs p := by
  unfold isSymlinkFS
  rw [h]

theorem existsFS_of_find_resolve_file {fs : FS} {p : FPath} {c : String}
    (h : findFS fs (resolveFS fs p) = some (Entry.file c)) : existsFS fs p = true := by
  unfold existsFS
  rw [h]

theorem existsFS_of_find_resolve_dir {fs : FS} {p : FPath} {c : String}
    (h : findFS fs (resolveFS fs p) = some (Entry.dir c)) : existsFS fs p = true := by
  unfold existsFS
  rw [h]

theorem find_resolve_of_existsFS {fs : FS} {p : FPath} (h : existsFS fs p = true) :
    (∃ c, findFS fs (resolveFS fs p) = some (Entry.file c)) ∨
    (∃ c, findFS fs (resolveFS fs p) = some (Entry.dir c)) := by
  unfold existsFS at h
  cases hf : findFS fs (resolveFS fs p) with
  | none => rw [hf] at h; exact absurd h (by simp)
  | some e =>
    cases e with
    | file c => exact Or.inl ⟨c, rfl⟩
    | dir c => exact Or.inr ⟨c, rfl⟩
    | symlink t => rw [hf] at h; exact absurd h (by simp)

/-- A link whose target is already the correct symlink is a no-op success,
for any force flag and any error oracle. -/
theorem create_symlink_noop (errs : ErrOracle) (fs : FS) (source tpath : String)
    (force : Bool)
    (hsrc : existsFS fs (resolveFS fs source) = true)
    (hsym : isSymlinkFS fs (expanduser tpath) = true)
    (hres : resolveFS fs (expanduser tpath) = resolveFS fs source) :
    create_symlink errs fs source tpath force = (true, fs) := by
  simp [create_symlink, hsrc, hsym, hres]

/-- A forced link over a non-correct target always succeeds with no injected
errors, and the resulting filesystem is the original overwritten at the
expanded target with a symlink to the resolved source. -/
theorem create_symlink_force (fs : FS) (source tpath : String)
    (hsrc : existsFS fs (resolveFS fs source) = true)
    (hnoop : ¬ (isSymlinkFS fs (expanduser tpath) = true ∧
                resolveFS fs (expanduser tpath) = resolveFS fs source)) :
    ∃ fs2, create_symlink noErrors fs source tpath true = (true, fs2) ∧
      ∀ q, findFS fs2 q =
        if q = expanduser tpath then some (Entry.symlink (resolveFS fs source))
        else findFS fs q := by
  by_cases houter : (existsFS fs (expanduser tpath) || isSymlinkFS fs (expanduser tpath)) = true
  · refine ⟨setFS (eraseFS fs (expanduser tpath)) (expanduser tpath)
      (Entry.symlink (resolveFS fs source)), ?_, ?_⟩
    · simp [create_symlink, hsrc, houter, hnoop, noErrors]
    · intro q
      rw [findFS_setFS]
      by_cases hq : q = expanduser tpath
      · simp [hq]
      · simp [hq, findFS_eraseFS]
  · refine ⟨setFS fs (expanduser tpath) (Entry.symlink (resolveFS fs source)), ?_, ?_⟩
    · simp [create_symlink, hsrc, houter, hnoop, noErrors]
    · intro q
      rw [findFS_setFS]

theorem nodup_middle_ne {α β : Type} (f : α → β) (l1 l2 : List α) (a : α)
    (h : ((l1 ++ a :: l2).map f).Nodup) :
    (∀ x ∈ l1, f x ≠ f a) ∧ (∀ x ∈ l2, f x ≠ f a) := by
  rw [List.map_append, List.map_cons, List.nodup_append] at h
  obtain ⟨h1, h2, hdis⟩ := h
  constructor
  · intro x hx heq
    exact hdis (List.mem_map_of_mem f hx) (by rw [heq]; exact List.mem_cons_self _ _)
  · intro x hx heq
    have hc := List.nodup_cons.mp h2
    exact hc.1 (by rw [← heq]; exact List.mem_map_of_mem f hx)

theorem deploy_run1_aux (configsDir : FPath) (fs0 : FS) (C : List (String × String))
    (H1 : ∀ it ∈ C, existsFS fs0 (configsDir ++ "/" ++ it.1) = true)
    (H2 : (C.map (fun it => expanduser it.2)).Nodup)
    (H3 : ∀ it ∈ C, ∀ q ∈ chainFS fs0 (configsDir ++ "/" ++ it.1),
      ∀ it2 ∈ C, q ≠ expanduser it2.2)
    (H4 : ∀ it ∈ C, ∀ q ∈ chainFS fs0 (expanduser it.2),
      q = expanduser it.2 ∨ ∀ it2 ∈ C, q ≠ expanduser it2.2) :
    ∀ rem done : List (String × String), ∀ cur : FS, C = done ++ rem →
      (∀ q : FPath, (∀ it2 ∈ C, q ≠ expanduser it2.2) → findFS cur q = findFS fs0 q) →
      (∀ it ∈ done,
        findFS cur (expanduser it.2) =
          some (Entry.symlink (resolveFS fs0 (configsDir ++ "/" ++ it.1))) ∨
        (findFS cur (expanduser it.2) = findFS fs0 (expanduser it.2) ∧
         isSymlinkFS fs0 (expanduser it.2) = true ∧
         resolveFS fs0 (expanduser it.2) = resolveFS fs0 (configsDir ++ "/" ++ it.1))) →
      (∀ it ∈ rem, findFS cur (expanduser it.2) = findFS fs0 (expanduser it.2)) →
      ∃ fs1,
        deploy_configs_go noErrors configsDir true cur rem =
          (rem.map (fun it => (it.1, true)), fs1) ∧
        (∀ q : FPath, (∀ it2 ∈ C, q ≠ expanduser it2.2) →
          findFS fs1 q = findFS fs0 q) ∧
        (∀ it ∈ C,
          findFS fs1 (expanduser it.2) =
            some (Entry.symlink (resolveFS fs0 (configsDir ++ "/" ++ it.1))) ∨
          (findFS fs1 (expanduser it.2) = findFS fs0 (expanduser it.2) ∧
           isSymlinkFS fs0 (expanduser it.2) = true ∧
           resolveFS fs0 (expanduser it.2) = resolveFS fs0 (configsDir ++ "/" ++ it.1))) := by
  intro rem
  induction rem with
  | nil =>
    intro done cur hC hA1 hA2 _
    refine ⟨cur, rfl, hA1, ?_⟩
    intro it hit
    refine hA2 it ?_
    rw [hC] at hit
    simpa using hit
  | cons it0 rem' ih =>
    intro done cur hC hA1 hA2 hA3
    obtain ⟨name, tpath⟩ := it0
    have hitC : (name, tpath) ∈ C := by
      rw [hC]
      exact List.mem_append_right _ (List.mem_cons_self _ _)
    have hchainS : ∀ q ∈ chainFS fs0 (configsDir ++ "/" ++ name),
        findFS cur q = findFS fs0 q := by
      intro q hq
      exact hA1 q (fun it2 hit2 => H3 (name, tpath) hitC q hq it2 hit2)
    have hresS : resolveFS cur (configsDir ++ "/" ++ name) =
        resolveFS fs0 (configsDir ++ "/" ++ name) := resolveFS_congr hchainS
    have hrmem : resolveFS fs0 (configsDir ++ "/" ++ name) ∈
        chainFS fs0 (configsDir ++ "/" ++ name) := resolveFS_mem_chainFS fs0 _
    have hfindr : findFS cur (resolveFS fs0 (configsDir ++ "/" ++ name)) =
        findFS fs0 (resolveFS fs0 (configsDir ++ "/" ++ name)) := hchainS _ hrmem
    have hsrc0 := H1 (name, tpath) hitC
    have hrnotsym : isSymlinkFS fs0 (resolveFS fs0 (configsDir ++ "/" ++ name)) = false := by
      rcases find_resolve_of_existsFS hsrc0 with ⟨c, hf⟩ | ⟨c, hf⟩ <;>
        simp [isSymlinkFS, hf]
    have hexS : existsFS cur (configsDir ++ "/" ++ name) = true := by
      rcases find_resolve_of_existsFS hsrc0 with ⟨c, hf⟩ | ⟨c, hf⟩
      · exact existsFS_of_find_resolve_file (by rw [hresS, hfindr]; exact hf)
      · exact existsFS_of_find_resolve_dir (by rw [hresS, hfindr]; exact hf)
    have hcurrnotsym : isSymlinkFS cur (resolveFS fs0 (configsDir ++ "/" ++ name)) = false := by
      rw [isSymlinkFS_congr_find hfindr]
      exact hrnotsym
    have hexRS : existsFS cur (resolveFS cur (configsDir ++ "/" ++ name)) = true := by
      rw [hresS]
      have hrr : resolveFS cur (resolveFS fs0 (configsDir ++ "/" ++ name)) =
          resolveFS fs0 (configsDir ++ "/" ++ name) :=
        resolveFS_of_not_symlink hcurrnotsym
      rcases find_resolve_of_existsFS hsrc0 with ⟨c, hf⟩ | ⟨c, hf⟩
      · exact existsFS_of_find_resolve_file (by rw [hrr, hfindr]; exact hf)
      · exact existsFS_of_find_resolve_dir (by rw [hrr, hfindr]; exact hf)
    have hTfind : findFS cur (expanduser tpath) = findFS fs0 (expanduser tpath) :=
      hA3 (name, tpath) (List.mem_cons_self _ _)
    have hTsym : isSymlinkFS cur (expanduser tpath) = isSymlinkFS fs0 (expanduser tpath) :=
      isSymlinkFS_congr_find hTfind
    have hchainT : ∀ q ∈ chainFS fs0 (expanduser tpath), findFS cur q = findFS fs0 q := by
      intro q hq
      rcases H4 (name, tpath) hitC q hq with hqT | hnot
      · rw [hqT]
        exact hTfind
      · exact hA1 q hnot
    have hTres : resolveFS cur (expanduser tpath) = resolveFS fs0 (expanduser tpath) :=
      resolveFS_congr hchainT
    have hne := nodup_middle_ne (fun it => expanduser it.2) done rem'
      (name, tpath) (by rw [← hC]; exact H2)
    by_cases hP : isSymlinkFS fs0 (expanduser tpath) = true ∧
        resolveFS fs0 (expanduser tpath) = resolveFS fs0 (configsDir ++ "/" ++ name)
    · have hnoop := create_symlink_noop noErrors cur (configsDir ++ "/" ++ name) tpath true
        hexRS (by rw [hTsym]; exact hP.1) (by rw [hTres, hresS]; exact hP.2)
      obtain ⟨fs1, hrun, hA1f, hA2f⟩ := ih (done ++ [(name, tpath)]) cur
        (by rw [hC]; simp) hA1
        (by
          intro it' hit'
          rcases List.mem_append.mp hit' with hd | hl
          · exact hA2 it' hd
          · have heq : it' = (name, tpath) := by simpa using hl
            subst heq
            exact Or.inr ⟨hTfind, hP.1, hP.2⟩)
        (by
          intro it2 hit2
          exact hA3 it2 (List.mem_cons_of_mem _ hit2))
      refine ⟨fs1, ?_, hA1f, hA2f⟩
      show deploy_configs_go noErrors configsDir true cur ((name, tpath) :: rem') = _
      simp [deploy_configs_go, hexS, hnoop, hrun]
    · have hnoopc : ¬ (isSymlinkFS cur (expanduser tpath) = true ∧
          resolveFS cur (expanduser tpath) =
            resolveFS cur (configsDir ++ "/" ++ name)) := by
        rw [hTsym, hTres, hresS]
        exact hP
      obtain ⟨fs2, hcr, hfind2⟩ := create_symlink_force cur (configsDir ++ "/" ++ name)
        tpath hexRS hnoopc
      obtain ⟨fs1, hrun, hA1f, hA2f⟩ := ih (done ++ [(name, tpath)]) fs2
        (by rw [hC]; simp)
        (by
          intro q hq
          rw [hfind2 q, if_neg (hq (name, tpath) hitC)]
          exact hA1 q hq)
        (by
          intro it' hit'
          rcases List.mem_append.mp hit' with hd | hl
          · rcases hA2 it' hd with hcA | ⟨hfB, hsB, hrB⟩
            · left
              rw [hfind2, if_neg (hne.1 it' hd)]
              exact hcA
            · right
              refine ⟨?_, hsB, hrB⟩
              rw [hfind2, if_neg (hne.1 it' hd)]
              exact hfB
          · have heq : it' = (name, tpath) := by simpa using hl
            subst heq
            left
            rw [hfind2, if_pos rfl, hresS])
        (by
          intro it2 hit2
          rw [hfind2, if_neg (hne.2 it2 hit2)]
          exact hA3 it2 (List.mem_cons_of_mem _ hit2))
      refine ⟨fs1, ?_, hA1f, hA2f⟩
      show deploy_configs_go noErrors configsDir true cur ((name, tpath) :: rem') = _
      simp [deploy_configs_go, hexS, hcr, hrun]

theorem post_deploy_facts (configsDir : FPath) (fs0 fs1 : FS) (C : List (String × String))
    (H1 : ∀ it ∈ C, existsFS fs0 (configsDir ++ "/" ++ it.1) = true)
    (H3 : ∀ it ∈ C, ∀ q ∈ chainFS fs0 (configsDir ++ "/" ++ it.1),
      ∀ it2 ∈ C, q ≠ expanduser it2.2)
    (H4 : ∀ it ∈ C, ∀ q ∈ chainFS fs0 (expanduser it.2),
      q = expanduser it.2 ∨ ∀ it2 ∈ C, q ≠ expanduser it2.2)
    (hA1 : ∀ q : FPath, (∀ it2 ∈ C, q ≠ expanduser it2.2) →
      findFS fs1 q = findFS fs0 q)
    (hA2 : ∀ it ∈ C,
      findFS fs1 (expanduser it.2) =
        some (Entry.symlink (resolveFS fs0 (configsDir ++ "/" ++ it.1))) ∨
      (findFS fs1 (expanduser it.2) = findFS fs0 (expanduser it.2) ∧
       isSymlinkFS fs0 (expanduser it.2) = true ∧
       resolveFS fs0 (expanduser it.2) = resolveFS fs0 (configsDir ++ "/" ++ it.1))) :
    ∀ it ∈ C,
      existsFS fs1 (configsDir ++ "/" ++ it.1) = true ∧
      existsFS fs1 (resolveFS fs1 (configsDir ++ "/" ++ it.1)) = true ∧
      isSymlinkFS fs1 (expanduser it.2) = true ∧
      resolveFS fs1 (expanduser it.2) = resolveFS fs1 (configsDir ++ "/" ++ it.1) := by
  intro it hit
  have hchainS : ∀ q ∈ chainFS fs0 (configsDir ++ "/" ++ it.1),
      findFS fs1 q = findFS fs0 q := by
    intro q hq
    exact hA1 q (fun it2 hit2 => H3 it hit q hq it2 hit2)
  have hresS : resolveFS fs1 (configsDir ++ "/" ++ it.1) =
      resolveFS fs0 (configsDir ++ "/" ++ it.1) := resolveFS_congr hchainS
  have hrmem : resolveFS fs0 (configsDir ++ "/" ++ it.1) ∈
      chainFS fs0 (configsDir ++ "/" ++ it.1) := resolveFS_mem_chainFS fs0 _
  have hfindr : findFS fs1 (resolveFS fs0 (configsDir ++ "/" ++ it.1)) =
      findFS fs0 (resolveFS fs0 (configsDir ++ "/" ++ it.1)) := hchainS _ hrmem
  have hsrc0 := H1 it hit
  have hrnotsym : isSymlinkFS fs0 (resolveFS fs0 (configsDir ++ "/" ++ it.1)) = false := by
    rcases find_resolve_of_existsFS hsrc0 with ⟨c, hf⟩ | ⟨c, hf⟩ <;>
      simp [isSymlinkFS, hf]
  have hexS : existsFS fs1 (configsDir ++ "/" ++ it.1) = true := by
    rcases find_resolve_of_existsFS hsrc0 with ⟨c, hf⟩ | ⟨c, hf⟩
    · exact existsFS_of_find_resolve_file (by rw [hresS, hfindr]; exact hf)
    · exact existsFS_of_find_resolve_dir (by rw [hresS, hfindr]; exact hf)
  have hr1notsym : isSymlinkFS fs1 (resolveFS fs0 (configsDir ++ "/" ++ it.1)) = false := by
    rw [isSymlinkFS_congr_find hfindr]
    exact hrnotsym
  have hexRS : existsFS fs1 (resolveFS fs1 (configsDir ++ "/" ++ it.1)) = true := by
    rw [hresS]
    have hrr : resolveFS fs1 (resolveFS fs0 (configsDir ++ "/" ++ it.1)) =
        resolveFS fs0 (configsDir ++ "/" ++ it.1) :=
      resolveFS_of_not_symlink hr1notsym
    rcases find_resolve_of_existsFS hsrc0 with ⟨c, hf⟩ | ⟨c, hf⟩
    · exact existsFS_of_find_resolve_file (by rw [hrr, hfindr]; exact hf)
    · exact existsFS_of_find_resolve_dir (by rw [hrr, hfindr]; exact hf)
  refine ⟨hexS, hexRS, ?_, ?_⟩
  · rcases hA2 it hit with hcA | ⟨hfB, hsB, _⟩
    · simp [isSymlinkFS, hcA]
    · rw [isSymlinkFS_congr_find hfB]
      exact hsB
  · rcases hA2 it hit with hcA | ⟨hfB, hsB, hrB⟩
    · have hrneT : resolveFS fs0 (configsDir ++ "/" ++ it.1) ≠ expanduser it.2 :=
        H3 it hit _ hrmem it hit
      have := resolveFS_symlink_step hcA hrneT hr1notsym
      rw [this, hresS]
    · have hchainT : ∀ q ∈ chainFS fs0 (expanduser it.2),
          findFS fs1 q = findFS fs0 q := by
        intro q hq
        rcases H4 it hit q hq with hqT | hnot
        · rw [hqT]
          exact hfB
        · exact hA1 q hnot
      have hTres : resolveFS fs1 (expanduser it.2) = resolveFS fs0 (expanduser it.2) :=
        resolveFS_congr hchainT
      rw [hTres, hrB, hresS]

theorem deploy_noop_run (configsDir : FPath) (fs1 : FS) :
    ∀ rem : List (String × String),
      (∀ it ∈ rem,
        existsFS fs1 (configsDir ++ "/" ++ it.1) = true ∧
        existsFS fs1 (resolveFS fs1 (configsDir ++ "/" ++ it.1)) = true ∧
        isSymlinkFS fs1 (expanduser it.2) = true ∧
        resolveFS fs1 (expanduser it.2) = resolveFS fs1 (configsDir ++ "/" ++ it.1)) →
      deploy_configs_go noErrors configsDir true fs1 rem =
        (rem.map (fun it => (it.1, true)), fs1) := by
  intro rem
  induction rem with
  | nil => intro _; rfl
  | cons it0 rem' ih =>
    intro h
    obtain ⟨name, tpath⟩ := it0
    obtain ⟨hex, hexr, hsym, hres⟩ := h (name, tpath) (List.mem_cons_self _ _)
    have hnoop := create_symlink_noop noErrors fs1 (configsDir ++ "/" ++ name) tpath true
      hexr hsym hres
    have hrest := ih (fun it2 hit2 => h it2 (List.mem_cons_of_mem _ hit2))
    simp [deploy_configs_go, hex, hnoop, hrest]

theorem check_conflicts_noop (configsDir : FPath) (fs1 : FS) :
    ∀ rem : List (String × String),
      (∀ it ∈ rem,
        isSymlinkFS fs1 (expanduser it.2) = true ∧
        existsFS fs1 (configsDir ++ "/" ++ it.1) = true ∧
        resolveFS fs1 (expanduser it.2) = resolveFS fs1 (configsDir ++ "/" ++ it.1)) →
      check_conflicts_go configsDir fs1 rem = [] := by
  intro rem
  induction rem with
  | nil => intro _; rfl
  | cons it0 rem' ih =>
    intro h
    obtain ⟨name, tpath⟩ := it0
    obtain ⟨hsym, hex, hres⟩ := h (name, tpath) (List.mem_cons_self _ _)
    have hrest := ih (fun it2 hit2 => h it2 (List.mem_cons_of_mem _ hit2))
    simp [check_conflicts_go, hsym, hex, hres, hrest]

/-- C1 (corrected): provided every store source exists, the expanded target
paths are pairwise distinct, no path on the symlink-resolution chain of any
store source is itself a target path, and no path on the resolution chain of
a target other than the target itself is another target path, a forced
deployment with no injected filesystem errors succeeds on every item, a
second forced run is a pure no-op leaving the filesystem literally identical
and again succeeding on every item, and conflict detection after the first
run reports no conflicts.  Independently, for any oracle and force flag,
link is a no-op success when the target is already a symlink resolving to
the canonical source. -/
theorem C1_deploy_idempotent (configsDir : FPath) (fs0 : FS) (C : List (String × String))
    (H1 : ∀ it ∈ C, existsFS fs0 (configsDir ++ "/" ++ it.1) = true)
    (H2 : (C.map (fun it => expanduser it.2)).Nodup)
    (H3 : ∀ it ∈ C, ∀ q ∈ chainFS fs0 (configsDir ++ "/" ++ it.1),
      ∀ it2 ∈ C, q ≠ expanduser it2.2)
    (H4 : ∀ it ∈ C, ∀ q ∈ chainFS fs0 (expanduser it.2),
      q = expanduser it.2 ∨ ∀ it2 ∈ C, q ≠ expanduser it2.2) :
    (deploy_configs_go noErrors configsDir true fs0 C).1 =
      C.map (fun it => (it.1, true)) ∧
    deploy_configs_go noErrors configsDir true
        (deploy_configs_go noErrors configsDir true fs0 C).2 C =
      (C.map (fun it => (it.1, true)),
       (deploy_configs_go noErrors configsDir true fs0 C).2) ∧
    check_conflicts_go configsDir
        (deploy_configs_go noErrors configsDir true fs0 C).2 C = [] ∧
    (∀ errs : ErrOracle, ∀ fs : FS, ∀ source tpath : String, ∀ force : Bool,
      existsFS fs (resolveFS fs source) = true →
      isSymlinkFS fs (expanduser tpath) = true →
      resolveFS fs (expanduser tpath) = resolveFS fs source →
      create_symlink errs fs source tpath force = (true, fs)) := by
  obtain ⟨fs1, hrun, hA1, hA2⟩ := deploy_run1_aux configsDir fs0 C H1 H2 H3 H4 C [] fs0
    rfl (fun q _ => rfl)
    (by intro it hit; exact absurd hit (List.not_mem_nil it))
    (fun it _ => rfl)
  have hfacts := post_deploy_facts configsDir fs0 fs1 C H1 H3 H4 hA1 hA2
  have hrun2 := deploy_noop_run configsDir fs1 C hfacts
  have hchk := check_conflicts_noop configsDir fs1 C
    (fun it hit => ⟨(hfacts it hit).2.2.1, (hfacts it hit).1, (hfacts it hit).2.2.2⟩)
  refine ⟨by rw [hrun], ?_, ?_, ?_⟩
  · rw [hrun]
    exact hrun2
  · rw [hrun]
    exact hchk
  · intro errs fs source tpath force h1 h2 h3
    exact create_symlink_noop errs fs source tpath force h1 h2 h3

/-- C1 counterexample: the descriptor maps config A to target /store/A, the
path of its own store source, which exists as a plain file.  The forced
deployment reports success for every item, yet it unlinks the source itself
and installs a self-looping symlink, so conflict detection afterwards
reports a conflict of kind symlink instead of none: the claim that detect
returns no conflicts after a successful deployment is false for this
descriptor even though all store sources existed. -/
theorem C1_counterexample :
    existsFS [("/store/A", Entry.file "x")] ("/store" ++ "/" ++ "A") = true ∧
    deploy_configs_go noErrors "/store" true [("/store/A", Entry.file "x")]
        [("A", "/store/A")] =
      ([("A", true)], [("/store/A", Entry.symlink "/store/A")]) ∧
    check_conflicts_go "/store" [("/store/A", Entry.symlink "/store/A")]
        [("A", "/store/A")] =
      [{ name := "A", path := "/store/A", type := "symlink", is_symlink := true }] ∧
    check_conflicts_go "/store" [("/store/A", Entry.symlink "/store/A")]
        [("A", "/store/A")] ≠ [] := by
  refine ⟨by decide, by decide, by decide, by decide⟩

theorem C1_deploy_idempotent_witness :
    (deploy_configs_go noErrors "/store" true
        [("/store/zshrc", Entry.file "s"), ("/home/user/.zshrc", Entry.file "old"),
         ("/store/nvim", Entry.dir "d")]
        [("zshrc", "~/.zshrc"), ("nvim", "~/.config/nvim")]).1 =
      [("zshrc", true), ("nvim", true)] ∧
    deploy_configs_go noErrors "/store" true
        (deploy_configs_go noErrors "/store" true
          [("/store/zshrc", Entry.file "s"), ("/home/user/.zshrc", Entry.file "old"),
           ("/store/nvim", Entry.dir "d")]
          [("zshrc", "~/.zshrc"), ("nvim", "~/.config/nvim")]).2
        [("zshrc", "~/.zshrc"), ("nvim", "~/.config/nvim")] =
      ([("zshrc", true), ("nvim", true)],
       (deploy_configs_go noErrors "/store" true
          [("/store/zshrc", Entry.file "s"), ("/home/user/.zshrc", Entry.file "old"),
           ("/store/nvim", Entry.dir "d")]
          [("zshrc", "~/.zshrc"), ("nvim", "~/.config/nvim")]).2) ∧
    check_conflicts_go "/store"
        (deploy_configs_go noErrors "/store" true
          [("/store/zshrc", Entry.file "s"), ("/home/user/.zshrc", Entry.file "old"),
           ("/store/nvim", Entry.dir "d")]
          [("zshrc", "~/.zshrc"), ("nvim", "~/.config/nvim")]).2
        [("zshrc", "~/.zshrc"), ("nvim", "~/.config/nvim")] = [] ∧
    create_symlink noErrors
        [("/store/zshrc", Entry.file "s"), ("/home/user/.zshrc", Entry.symlink "/store/zshrc")]
        "/store/zshrc" "~/.zshrc" false =
      (true, [("/store/zshrc", Entry.file "s"),
              ("/home/user/.zshrc", Entry.symlink "/store/zshrc")]) := by
  have h := C1_deploy_idempotent "/store"
    [("/store/zshrc", Entry.file "s"), ("/home/user/.zshrc", Entry.file "old"),
     ("/store/nvim", Entry.dir "d")]
    [("zshrc", "~/.zshrc"), ("nvim", "~/.config/nvim")]
    (by decide) (by decide) (by decide) (by decide)
  exact ⟨h.1, h.2.1, h.2.2.1,
    h.2.2.2 noErrors
      [("/store/zshrc", Entry.file "s"), ("/home/user/.zshrc", Entry.symlink "/store/zshrc")]
      "/store/zshrc" "~/.zshrc" false (by decide) (by decide) (by decide)⟩
